import Mathlib

/-!
# NanoboyAdvance: the ARM7 core helpers and the audio unit's scheduling

Shallow embedding of `src/core/arm7.h` (barrel shifter, condition-flag helpers, register banking,
memory methods, decode index), of the mixer and the scheduler calls of `apu.cpp`, and of
`NoiseChannel::GetSynthesisInterval` (`channel_noise.hpp`).  A `u32` is a natural
number below `2 ^ 32`; every operation that can leave that range in C++ is reduced
`% 2 ^ 32` explicitly.  A `bool` is a `Bool`.  Reference parameters
(`u32& operand`, `bool& carry`) become a returned pair; a method that updates `cpsr` becomes a
function from the old value to the new one; a method that calls the memory returns the list of
calls it makes.
-/

namespace NanoboyAdvance

/-! ## Building blocks -/

/-- Counted loop whose body does not read the loop counter: `n` executions of `body`,
the first one on the incoming state. -/
def loopN {σ : Type} (body : σ → σ) : Nat → σ → σ
  | 0, s => s
  | n + 1, s => loopN body n (body s)

/-- What a C++ shift of a `u32` by a count that is not below 32 produces.  The language leaves
it undefined, so it is a parameter of the single-expression shifter variants. -/
structure WideShift where
  /-- Result of `x << n` for `n ≥ 32`. -/
  shl : Nat → Nat → Nat
  /-- Result of `x >> n` for `n ≥ 32`. -/
  shr : Nat → Nat → Nat

/-- The behaviour of the x86-64 shift instructions: the count is taken modulo 32. -/
def WideShift.masked : WideShift where
  shl := fun x n => x <<< (n % 32)
  shr := fun x n => x >>> (n % 32)

/-- A shifter that returns zero for every wide count. -/
def WideShift.zero : WideShift where
  shl := fun _ _ => 0
  shr := fun _ _ => 0

/-- C++ `x << n` on `u32`. -/
def shl32 (ws : WideShift) (x n : Nat) : Nat :=
  if n < 32 then (x <<< n) % 2 ^ 32 else ws.shl x n % 2 ^ 32

/-- C++ `x >> n` on `u32`. -/
def shr32 (ws : WideShift) (x n : Nat) : Nat :=
  if n < 32 then x >>> n else ws.shr x n % 2 ^ 32

/-- C++ `amount - 1` on `u32` (wraps at zero). -/
def dec32 (amount : Nat) : Nat := (amount + (2 ^ 32 - 1)) % 2 ^ 32

namespace ARM7

/-! ## Shifter methods -/

/-- `ARM7::LSL`, the branch compiled when neither `__i386__` nor `__arm__` is defined:
`carry = (operand << (amount - 1)) & 0x80000000 ? true : false; operand <<= amount;`
guarded by `amount != 0`. -/
def LSL_expr (ws : WideShift) (operand amount : Nat) (carry : Bool) : Nat × Bool :=
  if amount != 0 then
    let carry1 := (shl32 ws operand (dec32 amount)) &&& 0x80000000 != 0
    let operand1 := shl32 ws operand amount
    (operand1, carry1)
  else
    (operand, carry)

/-- Body of the `__i386__` loop of `ARM7::LSL`:
`carry = operand & 0x80000000 ? true : false; operand <<= 1;`. -/
def lslBody (s : Nat × Bool) : Nat × Bool :=
  ((s.1 <<< 1) % 2 ^ 32, s.1 &&& 0x80000000 != 0)

/-- `ARM7::LSL`, the branch compiled under `__i386__`:
`for (u32 i = 0; i < amount; i++)` around `lslBody`, guarded by `amount != 0`. -/
def LSL_loop (operand amount : Nat) (carry : Bool) : Nat × Bool :=
  if amount != 0 then loopN lslBody amount (operand, carry) else (operand, carry)

/-- The first statement of `LSR` and `ASR`:
`amount = immediate & (amount == 0) ? 32 : amount;`. -/
def immAmount (amount : Nat) (immediate : Bool) : Nat :=
  if (immediate && (amount == 0)) then 32 else amount

/-- `ARM7::LSR`, the branch compiled when neither `__i386__` nor `__arm__` is defined:
`carry = (operand >> (amount - 1)) & 1; operand >>= amount;`, with no guard on `amount`. -/
def LSR_expr (ws : WideShift) (operand amount : Nat) (_carry : Bool) (immediate : Bool) :
    Nat × Bool :=
  let amount1 := immAmount amount immediate
  let carry1 := (shr32 ws operand (dec32 amount1)) &&& 1 != 0
  let operand1 := shr32 ws operand amount1
  (operand1, carry1)

/-- Body of the `__i386__` loop of `ARM7::LSR`:
`carry = operand & 1 ? true : false; operand >>= 1;`. -/
def lsrBody (s : Nat × Bool) : Nat × Bool :=
  (s.1 >>> 1, s.1 &&& 1 != 0)

/-- `ARM7::LSR`, the branch compiled under `__i386__`. -/
def LSR_loop (operand amount : Nat) (carry : Bool) (immediate : Bool) : Nat × Bool :=
  loopN lsrBody (immAmount amount immediate) (operand, carry)

/-- Body of the loop of `ARM7::ASR`:
`carry = operand & 1 ? true : false; operand = (operand >> 1) | sign_bit;`. -/
def asrBody (sign_bit : Nat) (s : Nat × Bool) : Nat × Bool :=
  ((s.1 >>> 1) ||| sign_bit, s.1 &&& 1 != 0)

/-- `ARM7::ASR`, the branch compiled when `__arm__` is not defined. -/
def ASR (operand amount : Nat) (carry : Bool) (immediate : Bool) : Nat × Bool :=
  let sign_bit := operand &&& 0x80000000
  loopN (asrBody sign_bit) (immAmount amount immediate) (operand, carry)

/-- Body of the loop of `ARM7::ROR`:
`u32 high_bit = (operand & 1) ? 0x80000000 : 0; operand = (operand >> 1) | high_bit;`
`carry = high_bit == 0x80000000;`. -/
def rorBody (s : Nat × Bool) : Nat × Bool :=
  let high_bit := if s.1 &&& 1 != 0 then 0x80000000 else 0
  ((s.1 >>> 1) ||| high_bit, high_bit == 0x80000000)

/-- `ARM7::ROR`.  The loop `for (u32 i = 1; i <= amount; i++)` runs its body `amount` times when
`amount < 0xFFFFFFFF`; at `amount = 0xFFFFFFFF` the counter wraps to zero and the loop never
exits, which is the `none` result.  The `else` branch is RRX. -/
def ROR (operand amount : Nat) (carry : Bool) (immediate : Bool) : Option (Nat × Bool) :=
  if amount != 0 || !immediate then
    if amount = 0xFFFFFFFF then none
    else some (loopN rorBody amount (operand, carry))
  else
    let old_carry := carry
    let carry1 := operand &&& 1 != 0
    some ((operand >>> 1) ||| (if old_carry then 0x80000000 else 0), carry1)

/-! ## Condition code altering methods -/

/-- `CPSRFlags::Thumb`. -/
def Thumb : Nat := 0x20
/-- `CPSRFlags::FIQDisable`. -/
def FIQDisable : Nat := 0x40
/-- `CPSRFlags::IRQDisable`. -/
def IRQDisable : Nat := 0x80
/-- `CPSRFlags::OverflowFlag`. -/
def OverflowFlag : Nat := 0x10000000
/-- `CPSRFlags::CarryFlag`. -/
def CarryFlag : Nat := 0x20000000
/-- `CPSRFlags::ZeroFlag`. -/
def ZeroFlag : Nat := 0x40000000
/-- `CPSRFlags::SignFlag`. -/
def SignFlag : Nat := 0x80000000

/-- C++ `~x` on a 32-bit unsigned value (the enumeration `CPSRFlags` holds `0x80000000`, so its
values promote to `unsigned int`). -/
def not32 (x : Nat) : Nat := 0xFFFFFFFF ^^^ x

/-- `ARM7::CalculateOverflowAdd`, as a function from the old `cpsr` to the new one. -/
def CalculateOverflowAdd (cpsr result operand1 operand2 : Nat) : Nat :=
  let overflow := (operand1 >>> 31 == operand2 >>> 31) && (result >>> 31 != operand2 >>> 31)
  if overflow then cpsr ||| OverflowFlag else cpsr &&& not32 OverflowFlag

/-- `ARM7::CalculateOverflowSub`, as a function from the old `cpsr` to the new one. -/
def CalculateOverflowSub (cpsr result operand1 operand2 : Nat) : Nat :=
  let overflow := (operand1 >>> 31 != operand2 >>> 31) && (result >>> 31 == operand2 >>> 31)
  if overflow then cpsr ||| OverflowFlag else cpsr &&& not32 OverflowFlag

/-- `ARM7::CalculateSign`, as a function from the old `cpsr` to the new one. -/
def CalculateSign (cpsr result : Nat) : Nat :=
  if result &&& 0x80000000 != 0 then cpsr ||| SignFlag else cpsr &&& not32 SignFlag

/-- `ARM7::CalculateZero` (its parameter is a `u64`), as a function from the old `cpsr` to the
new one. -/
def CalculateZero (cpsr result : Nat) : Nat :=
  if result == 0 then cpsr ||| ZeroFlag else cpsr &&& not32 ZeroFlag

/-- `ARM7::AssertCarry`, as a function from the old `cpsr` to the new one. -/
def AssertCarry (cpsr : Nat) (carry : Bool) : Nat :=
  if carry then cpsr ||| CarryFlag else cpsr &&& not32 CarryFlag

end ARM7

/-- C++ `a - b` on `u32` (wraps below zero). -/
def sub32 (a b : Nat) : Nat := (a + (2 ^ 32 - b % 2 ^ 32)) % 2 ^ 32

/-- A CPSR update that can differ from the old value at bit `k` only. -/
def OnlyBitChanged (k old new : Nat) : Prop := ∀ i, i ≠ k → new.testBit i = old.testBit i

/-- Two's-complement reading of a 32-bit value (reference for the overflow claims; not a function
of the source). -/
def int32 (x : Nat) : Int := if x < 2 ^ 31 then (x : Int) else (x : Int) - 2 ^ 32

/-- Sign extension to 32 bits of a value of `bits` bits (reference for the signed reads; not a
function of the source). -/
def signExtend (bits x : Nat) : Nat :=
  if x.testBit (bits - 1) then x + (2 ^ 32 - 2 ^ bits) else x

/-- Rotation of a 32-bit value to the right by `n mod 32` positions (the reference the `ROR`
loop is compared with; it is not a function of the source). -/
def rotr32 (v n : Nat) : Nat :=
  (v >>> (n % 32)) ||| ((v <<< (32 - n % 32)) % 2 ^ 32)

namespace ARM7

/-! ## Register banking -/

/-- The register cells of `ARM7`: the 16 base registers and the banked copies. -/
inductive Reg
  | r0 | r1 | r2 | r3 | r4 | r5 | r6 | r7 | r8 | r9 | r10 | r11 | r12 | r13 | r14 | r15
  | r8_fiq | r9_fiq | r10_fiq | r11_fiq | r12_fiq | r13_fiq | r14_fiq
  | r13_svc | r14_svc
  | r13_abt | r14_abt
  | r13_irq | r14_irq
  | r13_und | r14_und
  deriving DecidableEq

/-- The saved program status register cells of `ARM7`. -/
inductive SpsrCell
  | spsr_fiq | spsr_svc | spsr_abt | spsr_irq | spsr_und | spsr_def
  deriving DecidableEq

/-- `ARM7Mode::User`. -/
def ARM7Mode.User : Nat := 0x10
/-- `ARM7Mode::FIQ`. -/
def ARM7Mode.FIQ : Nat := 0x11
/-- `ARM7Mode::IRQ`. -/
def ARM7Mode.IRQ : Nat := 0x12
/-- `ARM7Mode::SVC`. -/
def ARM7Mode.SVC : Nat := 0x13
/-- `ARM7Mode::Abort`. -/
def ARM7Mode.Abort : Nat := 0x17
/-- `ARM7Mode::Undefined`. -/
def ARM7Mode.Undefined : Nat := 0x1B
/-- `ARM7Mode::System`. -/
def ARM7Mode.System : Nat := 0x1F

/-- The mapping state `RemapRegisters` writes: the pointer table `gprs[16]` (each entry names the
cell it points to) and `pspsr` (`none` is `nullptr`). -/
structure RegView where
  gprs : Fin 16 → Reg
  pspsr : Option SpsrCell

/-- One `case` body of `RemapRegisters`: the seven assignments `gprs[8] = ..` to `gprs[14] = ..`
and `pspsr = ..`. -/
def RegView.assign (v : RegView) (a8 a9 a10 a11 a12 a13 a14 : Reg) (sp : SpsrCell) : RegView where
  gprs := fun i =>
    if i = 8 then a8 else if i = 9 then a9 else if i = 10 then a10 else if i = 11 then a11
    else if i = 12 then a12 else if i = 13 then a13 else if i = 14 then a14 else v.gprs i
  pspsr := some sp

/-- `ARM7::RemapRegisters`: `switch (cpsr & 0x1F)` with seven cases and no `default`. -/
def RemapRegisters (cpsr : Nat) (v : RegView) : RegView :=
  let mode := cpsr &&& 0x1F
  if mode = ARM7Mode.User then
    v.assign Reg.r8 Reg.r9 Reg.r10 Reg.r11 Reg.r12 Reg.r13 Reg.r14 SpsrCell.spsr_def
  else if mode = ARM7Mode.FIQ then
    v.assign Reg.r8_fiq Reg.r9_fiq Reg.r10_fiq Reg.r11_fiq Reg.r12_fiq Reg.r13_fiq Reg.r14_fiq
      SpsrCell.spsr_fiq
  else if mode = ARM7Mode.IRQ then
    v.assign Reg.r8 Reg.r9 Reg.r10 Reg.r11 Reg.r12 Reg.r13_irq Reg.r14_irq SpsrCell.spsr_irq
  else if mode = ARM7Mode.SVC then
    v.assign Reg.r8 Reg.r9 Reg.r10 Reg.r11 Reg.r12 Reg.r13_svc Reg.r14_svc SpsrCell.spsr_svc
  else if mode = ARM7Mode.Abort then
    v.assign Reg.r8 Reg.r9 Reg.r10 Reg.r11 Reg.r12 Reg.r13_abt Reg.r14_abt SpsrCell.spsr_abt
  else if mode = ARM7Mode.Undefined then
    v.assign Reg.r8 Reg.r9 Reg.r10 Reg.r11 Reg.r12 Reg.r13_und Reg.r14_und SpsrCell.spsr_und
  else if mode = ARM7Mode.System then
    v.assign Reg.r8 Reg.r9 Reg.r10 Reg.r11 Reg.r12 Reg.r13 Reg.r14 SpsrCell.spsr_def
  else
    v

/-- The cells the visible `r8` to `r12` select. -/
def RegView.r8_to_r12 (v : RegView) : List Reg :=
  [v.gprs 8, v.gprs 9, v.gprs 10, v.gprs 11, v.gprs 12]

/-- The cells the visible `r13` and `r14` select. -/
def RegView.r13_r14 (v : RegView) : Reg × Reg := (v.gprs 13, v.gprs 14)

/-- A view that maps every register to its base cell, with no SPSR selected. -/
def RegView.base : RegView where
  gprs := fun i =>
    [Reg.r0, Reg.r1, Reg.r2, Reg.r3, Reg.r4, Reg.r5, Reg.r6, Reg.r7, Reg.r8, Reg.r9, Reg.r10,
      Reg.r11, Reg.r12, Reg.r13, Reg.r14, Reg.r15].getD i.val Reg.r0
  pspsr := none

/-! ## Memory methods -/

/-- The read methods of `GBAMemory` that the processor calls.  The class is declared in
`gba_memory.h`, which is not among the sources, so what a read returns is a parameter. -/
structure GBAMemory where
  ReadByte : Nat → Nat
  ReadHWord : Nat → Nat
  ReadWord : Nat → Nat

/-- Result of `memory->ReadByte(offset)` as a `u8`. -/
def GBAMemory.byte (m : GBAMemory) (offset : Nat) : Nat := m.ReadByte offset % 2 ^ 8

/-- Result of `memory->ReadHWord(offset)` as a `u16`. -/
def GBAMemory.hword (m : GBAMemory) (offset : Nat) : Nat := m.ReadHWord offset % 2 ^ 16

/-- Result of `memory->ReadWord(offset)` as a `u32`. -/
def GBAMemory.word (m : GBAMemory) (offset : Nat) : Nat := m.ReadWord offset % 2 ^ 32

/-- A call of a `GBAMemory` method, as issued by the processor. -/
inductive BusAccess
  | ReadByte (offset : Nat)
  | ReadHWord (offset : Nat)
  | ReadWord (offset : Nat)
  | WriteByte (offset value : Nat)
  | WriteHWord (offset value : Nat)
  | WriteWord (offset value : Nat)
  deriving DecidableEq

/-- The fields of `ARM7` that `ReadWord` reads. -/
structure FetchState where
  cpsr : Nat
  last_fetched_opcode : Nat
  last_fetched_offset : Nat
  last_bios_offset : Nat

/-- `ARM7::ReadHWord`: the value returned (a `u16`) and the bus calls made.  `value` is promoted
to `int` in `(value >> 8) | (value << 24)`; the left shift is taken modulo `2 ^ 32` and the
`return` converts to `u16`. -/
def ReadHWord (m : GBAMemory) (offset : Nat) : Nat × List BusAccess :=
  if offset &&& 1 != 0 then
    let value := m.hword (offset &&& 0xFFFFFFFE)
    (((value >>> 8) ||| ((value <<< 24) % 2 ^ 32)) % 2 ^ 16,
      [BusAccess.ReadHWord (offset &&& 0xFFFFFFFE)])
  else
    (m.hword offset, [BusAccess.ReadHWord offset])

/-- `ARM7::ReadHWordSigned`: the value returned (a `u32`) and the bus calls made. -/
def ReadHWordSigned (m : GBAMemory) (offset : Nat) : Nat × List BusAccess :=
  if offset &&& 1 != 0 then
    let value := m.byte (offset &&& 0xFFFFFFFE)
    (if value &&& 0x80 != 0 then value ||| 0xFFFFFF00 else value,
      [BusAccess.ReadByte (offset &&& 0xFFFFFFFE)])
  else
    let value := m.hword offset
    (if value &&& 0x8000 != 0 then value ||| 0xFFFF0000 else value,
      [BusAccess.ReadHWord offset])

/-- `ARM7::ReadWord`: the value returned and the bus calls made. -/
def ReadWord (m : GBAMemory) (st : FetchState) (offset : Nat) : Nat × List BusAccess :=
  if offset < 0x4000 && st.last_fetched_offset ≥ 0x4000 then
    (m.word st.last_bios_offset, [BusAccess.ReadWord st.last_bios_offset])
  else if offset ≥ 0x4000 && offset < 0x2000000 then
    if st.cpsr &&& Thumb != 0 then
      (((st.last_fetched_opcode <<< 16) % 2 ^ 32) ||| st.last_fetched_opcode, [])
    else
      (st.last_fetched_opcode, [])
  else
    (m.word (offset &&& 0xFFFFFFFC), [BusAccess.ReadWord (offset &&& 0xFFFFFFFC)])

/-- `ARM7::ReadWordRotated`: the value returned and the bus calls made. -/
def ReadWordRotated (m : GBAMemory) (st : FetchState) (offset : Nat) : Nat × List BusAccess :=
  let r := ReadWord m st (offset &&& 0xFFFFFFFC)
  let value := r.1
  let amount := (offset &&& 3) * 8
  (if amount == 0 then value else (value >>> amount) ||| ((value <<< (32 - amount)) % 2 ^ 32),
    r.2)

/-- `ARM7::WriteHWord`: the bus calls made. -/
def WriteHWord (offset value : Nat) : List BusAccess :=
  let offset1 := offset &&& 0xFFFFFFFE
  [BusAccess.WriteHWord offset1 value]

/-- `ARM7::WriteWord`: the bus calls made. -/
def WriteWord (offset value : Nat) : List BusAccess :=
  let offset1 := offset &&& 0xFFFFFFFC
  [BusAccess.WriteWord offset1 value]

/-- A memory that answers every read with the same value. -/
def GBAMemory.const (x : Nat) : GBAMemory where
  ReadByte := fun _ => x
  ReadHWord := fun _ => x
  ReadWord := fun _ => x

/-- A memory that holds the byte `0x80` at address 1 and zero elsewhere. -/
def GBAMemory.byteAtOne : GBAMemory where
  ReadByte := fun a => if a = 1 then 0x80 else 0
  ReadHWord := fun a => if a = 0 then 0x8000 else 0
  ReadWord := fun a => if a = 0 then 0x8000 else 0

/-! ## Decoding -/

/-- The macro `arm_pack_instr(i)`: `((i) & 0xFFF) | (((i) & 0x0FF00000) >> 8)`. -/
def arm_pack_instr (i : Nat) : Nat := (i &&& 0xFFF) ||| ((i &&& 0x0FF00000) >>> 8)

end ARM7

/-! ## The audio unit and the scheduler (`apu.cpp`) -/

/-- Conversion of an integer to `std::int16_t` (two's-complement wrap-around). -/
def toInt16 (x : Int) : Int := (x + 2 ^ 15) % 2 ^ 16 - 2 ^ 15

/-- Conversion of an integer to `int` (two's-complement wrap-around on 32 bits). -/
def toInt32 (x : Int) : Int := (x + 2 ^ 31) % 2 ^ 32 - 2 ^ 31

/-- `std::clamp(v, lo, hi)`: `(v < lo) ? lo : (hi < v) ? hi : v`. -/
def clamp (v lo hi : Int) : Int := if v < lo then lo else if hi < v then hi else v

namespace APU

/-- The two member functions `APU` hands to the scheduler. -/
inductive Handler
  | StepMixer
  | StepSequencer
  deriving DecidableEq

/-- A pending scheduler event: its due time in cycles and the handler to run. -/
structure Event where
  timestamp : Int
  handler : Handler
  deriving DecidableEq

/-- Modelled from the spec: the class `Scheduler` (`scheduler.hpp` is not among the sources).
It has a cycle counter `now` and the pending events; section 4.A: "`Add(delta_cycles, handler,
user)`: schedule an event `delta_cycles` from now". -/
structure Scheduler where
  now : Int
  events : List Event

/-- Modelled from the spec: `Scheduler::Add`, which is not among the sources: the new event is due
`delta` cycles from `now`. -/
def Scheduler.Add (s : Scheduler) (delta : Int) (h : Handler) : Scheduler :=
  { s with events := s.events ++ [{ timestamp := s.now + delta, handler := h }] }

/-- The scheduler calls of `APU::StepMixer`: the one call
`scheduler.Add(mmio.bias.GetSampleInterval() - cycles_late, this, &APU::StepMixer)` that ends the
body.  `sample_interval` is what `mmio.bias.GetSampleInterval()` returns (`registers.hpp` is not
among the sources). -/
def StepMixer (sample_interval cycles_late : Int) (s : Scheduler) : Scheduler :=
  s.Add (sample_interval - cycles_late) Handler.StepMixer

/-- The scheduler calls of `APU::StepSequencer`: the one call
`scheduler.Add(BaseChannel::s_cycles_per_step - cycles_late, this, &APU::StepSequencer)` after
the four `Tick()` calls.  `s_cycles_per_step` is the constant `BaseChannel::s_cycles_per_step`
(not among the sources). -/
def StepSequencer (s_cycles_per_step cycles_late : Int) (s : Scheduler) : Scheduler :=
  s.Add (s_cycles_per_step - cycles_late) Handler.StepSequencer

/-- The scheduler calls of `APU::Reset`: one `StepMixer` event after a sample interval and one
`StepSequencer` event after a sequencer step. -/
def Reset (sample_interval s_cycles_per_step : Int) (s : Scheduler) : Scheduler :=
  (s.Add sample_interval Handler.StepMixer).Add s_cycles_per_step Handler.StepSequencer

/-- What the channel loop of `APU::StepMixer` reads.  The register classes (`registers.hpp`) and
the PSG channels are not among the sources, so the values they hold or return are parameters:
`psg.volume` and `dma[fifo].volume` as valid indices of the two volume tables, everything else as
an integer.  `latch` is the array after the `interpolate_fifo` branch. -/
structure MixerInputs where
  /-- Field `mmio.soundcnt.psg.volume`. -/
  psg_volume : Fin 4
  /-- Field `psg.master[channel]`. -/
  psg_master : Fin 2 → Int
  /-- Field `psg.enable[channel][k]`. -/
  psg_enable : Fin 2 → Fin 4 → Bool
  /-- Results of `mmio.psg1.GetSample()` to `mmio.psg4.GetSample()`. -/
  psg_sample : Fin 4 → Int
  /-- Field `dma[fifo].enable[channel]`, indexed by `fifo` then `channel`. -/
  dma_enable : Fin 2 → Fin 2 → Bool
  /-- Field `dma[fifo].volume`. -/
  dma_volume : Fin 2 → Fin 2
  /-- Array `latch[fifo]`. -/
  latch : Fin 2 → Int
  /-- Field `mmio.bias.level`. -/
  bias_level : Int

/-- Table `psg_volume_tab[4] = { 1, 2, 4, 0 }`. -/
def psg_volume_tab (i : Fin 4) : Int := [1, 2, 4, 0].getD i.val 0

/-- Table `dma_volume_tab[2] = { 2, 4 }`. -/
def dma_volume_tab (i : Fin 2) : Int := [2, 4].getD i.val 0

/-- The `std::int16_t psg_sample` of one iteration of the channel loop of `APU::StepMixer`: the
four conditional `psg_sample += mmio.psgN.GetSample()`, each stored back into 16 bits. -/
def StepMixer_psg_sample (inp : MixerInputs) (channel : Fin 2) : Int :=
  let p0 : Int := 0
  let p1 := if inp.psg_enable channel 0 then toInt16 (p0 + inp.psg_sample 0) else p0
  let p2 := if inp.psg_enable channel 1 then toInt16 (p1 + inp.psg_sample 1) else p1
  let p3 := if inp.psg_enable channel 2 then toInt16 (p2 + inp.psg_sample 2) else p2
  if inp.psg_enable channel 3 then toInt16 (p3 + inp.psg_sample 3) else p3

/-- The value of `sample[channel]` in one iteration of the channel loop of `APU::StepMixer`, just
before the clamp: PSG part, the two FIFO latches and the bias level, every `+=` stored back into
the `std::int16_t`. -/
def StepMixer_accumulate (inp : MixerInputs) (channel : Fin 2) : Int :=
  let psg_volume := psg_volume_tab inp.psg_volume
  let psg_sample := StepMixer_psg_sample inp channel
  let s0 : Int := 0
  let s1 := toInt16 (s0 + Int.tdiv (psg_sample * psg_volume * inp.psg_master channel) 28)
  let s2 :=
    if inp.dma_enable 0 channel then toInt16 (s1 + inp.latch 0 * dma_volume_tab (inp.dma_volume 0))
    else s1
  let s3 :=
    if inp.dma_enable 1 channel then toInt16 (s2 + inp.latch 1 * dma_volume_tab (inp.dma_volume 1))
    else s2
  toInt16 (s3 + inp.bias_level)

/-- The value of `sample[channel]` that `APU::StepMixer` leaves after one iteration of the channel
loop: the accumulated value, then
`sample[channel] = std::clamp(sample[channel], std::int16_t(0), std::int16_t(0x3FF));`
`sample[channel] -= 0x200;`. -/
def StepMixer_sample (inp : MixerInputs) (channel : Fin 2) : Int :=
  let s4 := StepMixer_accumulate inp channel
  let s5 := clamp s4 (toInt16 0) (toInt16 0x3FF)
  toInt16 (s5 - 0x200)

/-- Mixer inputs with every source disabled and the bias level at `0x200`. -/
def MixerInputs.silent : MixerInputs where
  psg_volume := 0
  psg_master := fun _ => 0
  psg_enable := fun _ _ => false
  psg_sample := fun _ => 0
  dma_enable := fun _ _ => false
  dma_volume := fun _ => 0
  latch := fun _ => 0
  bias_level := 0x200

/-- Mixer inputs where both FIFO latches are at their maximum and are mixed at full volume. -/
def MixerInputs.loud : MixerInputs where
  psg_volume := 2
  psg_master := fun _ => 7
  psg_enable := fun _ _ => true
  psg_sample := fun _ => 127
  dma_enable := fun _ _ => true
  dma_volume := fun _ => 1
  latch := fun _ => 127
  bias_level := 0x3FF

end APU

/-! ## The noise channel (`channel_noise.hpp`) -/

namespace NoiseChannel

/-- `NoiseChannel::GetSynthesisInterval`.  The parameters are `int`; `shift` is a shift count, so
it is a natural number here, and every `int` result is reduced to 32 bits. -/
def GetSynthesisInterval (ratio : Int) (shift : Nat) : Int :=
  let interval := toInt32 (64 * 2 ^ shift)
  if ratio == 0 then
    Int.tdiv interval 2
  else
    toInt32 (interval * ratio)

end NoiseChannel

/-! ## Generic lemmas -/

theorem loopN_succ_last {σ : Type} (body : σ → σ) (n : Nat) (s : σ) :
    loopN body (n + 1) s = body (loopN body n s) := by
  induction n generalizing s with
  | zero => rfl
  | succ k ih =>
    show loopN body (k + 1) (body s) = body (loopN body (k + 1) s)
    rw [ih (body s)]
    rfl

theorem loopN_add {σ : Type} (body : σ → σ) (m n : Nat) (s : σ) :
    loopN body (m + n) s = loopN body n (loopN body m s) := by
  induction m generalizing s with
  | zero => simp [loopN]
  | succ k ih =>
    have h : k + 1 + n = (k + n) + 1 := by omega
    rw [h]
    show loopN body (k + n) (body s) = loopN body n (loopN body k (body s))
    exact ih (body s)

/-- Masking with a single bit and comparing with zero reads that bit. -/
theorem and_two_pow_ne_zero (x i : Nat) : (x &&& 2 ^ i != 0) = x.testBit i := by
  cases h : x.testBit i with
  | false =>
    have hz : x &&& 2 ^ i = 0 := by
      apply Nat.eq_of_testBit_eq
      intro j
      rw [Nat.testBit_and, Nat.testBit_two_pow, Nat.zero_testBit]
      by_cases hij : i = j
      · subst hij; simp [h]
      · simp [hij]
    simp [hz]
  | true =>
    have hb : (x &&& 2 ^ i).testBit i = true := by
      rw [Nat.testBit_and, Nat.testBit_two_pow, h]; simp
    have hne : x &&& 2 ^ i ≠ 0 := by
      intro h0
      rw [h0, Nat.zero_testBit] at hb
      exact Bool.noConfusion hb
    simp [hne]

theorem and_sign_ne_zero (x : Nat) : (x &&& 0x80000000 != 0) = x.testBit 31 :=
  and_two_pow_ne_zero x 31

theorem and_one_ne_zero (x : Nat) : (x &&& 1 != 0) = x.testBit 0 :=
  and_two_pow_ne_zero x 0

/-! ## Closed forms of the shift loops -/

namespace ARM7

theorem lslBody_eq (x : Nat) (c : Bool) :
    lslBody (x, c) = ((x * 2) % 2 ^ 32, x.testBit 31) := by
  simp only [lslBody, and_sign_ne_zero, Nat.shiftLeft_eq, Nat.pow_one]

/-- State of the `LSL` loop after `k` iterations. -/
theorem lsl_loop_closed (v : Nat) (c : Bool) (hv : v < 2 ^ 32) (k : Nat) :
    loopN lslBody k (v, c)
      = ((v * 2 ^ k) % 2 ^ 32,
          if k = 0 then c else ((v * 2 ^ (k - 1)) % 2 ^ 32).testBit 31) := by
  induction k with
  | zero =>
    show (v, c) = ((v * 2 ^ 0) % 2 ^ 32, c)
    rw [Nat.pow_zero, Nat.mul_one, Nat.mod_eq_of_lt hv]
  | succ k ih =>
    rw [loopN_succ_last, ih, lslBody_eq]
    have hp : v * 2 ^ (k + 1) = v * 2 ^ k * 2 := by rw [Nat.pow_succ, Nat.mul_assoc]
    rw [hp, Nat.mod_mul_mod, if_neg (Nat.succ_ne_zero k), Nat.add_sub_cancel]

/-- Bit 31 of `v * 2 ^ j` reduced to 32 bits is bit `31 - j` of `v`. -/
theorem testBit_31_mul_two_pow (v j : Nat) :
    ((v * 2 ^ j) % 2 ^ 32).testBit 31 = (decide (j ≤ 31) && v.testBit (31 - j)) := by
  rw [Nat.testBit_mod_two_pow, Nat.mul_comm, Nat.testBit_mul_pow_two]
  simp

theorem lsrBody_eq (x : Nat) (c : Bool) : lsrBody (x, c) = (x >>> 1, x.testBit 0) := by
  simp only [lsrBody, and_one_ne_zero]

/-- State of the `LSR` loop after `k` iterations. -/
theorem lsr_loop_closed (v : Nat) (c : Bool) (k : Nat) :
    loopN lsrBody k (v, c) = (v >>> k, if k = 0 then c else v.testBit (k - 1)) := by
  induction k with
  | zero => simp [loopN]
  | succ k ih =>
    rw [loopN_succ_last, ih, lsrBody_eq]
    simp [Nat.shiftRight_add]

theorem shiftRight_eq_zero_of_lt (v k : Nat) (hv : v < 2 ^ 32) (hk : 32 ≤ k) : v >>> k = 0 := by
  rw [Nat.shiftRight_eq_div_pow]
  apply Nat.div_eq_of_lt
  exact Nat.lt_of_lt_of_le hv (Nat.pow_le_pow_right (by decide) hk)

theorem testBit_eq_false_of_lt (v k : Nat) (hv : v < 2 ^ 32) (hk : 32 ≤ k) :
    v.testBit k = false :=
  Nat.testBit_lt_two_pow (Nat.lt_of_lt_of_le hv (Nat.pow_le_pow_right (by decide) hk))

theorem mul_two_pow_mod_eq_zero (v k : Nat) (hk : 32 ≤ k) : (v * 2 ^ k) % 2 ^ 32 = 0 := by
  obtain ⟨d, rfl⟩ := Nat.exists_eq_add_of_le hk
  rw [Nat.pow_add, ← Nat.mul_assoc, Nat.mul_right_comm]
  exact Nat.mul_mod_left _ _

theorem and_two_pow_eq (v i : Nat) : v &&& 2 ^ i = if v.testBit i then 2 ^ i else 0 := by
  apply Nat.eq_of_testBit_eq
  intro j
  rw [Nat.testBit_and, Nat.testBit_two_pow]
  by_cases hj : i = j
  · subst hj
    cases h : Nat.testBit v i <;> simp [Nat.testBit_two_pow]
  · cases h : Nat.testBit v i <;> simp [hj, Nat.testBit_two_pow]

theorem and_sign_eq (v : Nat) : v &&& 0x80000000 = if v.testBit 31 then 2 ^ 31 else 0 :=
  and_two_pow_eq v 31

theorem testBit_31_iff (v : Nat) (hv : v < 2 ^ 32) : v.testBit 31 = decide (2 ^ 31 ≤ v) := by
  rw [Nat.testBit_to_div_mod]
  apply decide_eq_decide.mpr
  omega

theorem asrBody_zero (s : Nat × Bool) : asrBody 0 s = lsrBody s := by
  simp [asrBody, lsrBody]

theorem asr_step_lt (D : Nat) : 2 ^ 32 - 1 - D < 2 ^ 32 := by omega

theorem asr_step_arith (D : Nat) (h : D ≤ 2 ^ 32 - 1) :
    (2 ^ 32 - 1 - D) / 2 + 2 ^ 31 = 2 ^ 32 - 1 - D / 2 := by omega

/-- One iteration of the `ASR` loop on a value with the sign bit set, in arithmetic form. -/
theorem asrBody_sign (x : Nat) (c : Bool) (hx : x < 2 ^ 32) :
    asrBody (2 ^ 31) (x, c) = (x / 2 + 2 ^ 31, decide (x % 2 = 1)) := by
  have hlt : x / 2 < 2 ^ 31 := by omega
  have hor : 2 ^ 31 * 1 + x / 2 = 2 ^ 31 * 1 ||| x / 2 := Nat.mul_add_lt_is_or hlt 1
  rw [Nat.mul_one] at hor
  have h1 : (x >>> 1) ||| 2 ^ 31 = x / 2 + 2 ^ 31 := by
    rw [Nat.shiftRight_eq_div_pow, Nat.pow_one, Nat.or_comm, ← hor, Nat.add_comm]
  simp only [asrBody, h1, and_one_ne_zero, Nat.testBit_zero]

/-- State of the `ASR` loop after `k` iterations when the sign bit of `v` is set. -/
theorem asr_loop_neg (v : Nat) (c : Bool) (hv : v < 2 ^ 32) (k : Nat) :
    loopN (asrBody (2 ^ 31)) k (v, c)
      = (2 ^ 32 - 1 - (2 ^ 32 - 1 - v) / 2 ^ k,
          if k = 0 then c
          else decide ((2 ^ 32 - 1 - (2 ^ 32 - 1 - v) / 2 ^ (k - 1)) % 2 = 1)) := by
  induction k with
  | zero =>
    show (v, c) = (2 ^ 32 - 1 - (2 ^ 32 - 1 - v) / 2 ^ 0, c)
    rw [Nat.pow_zero, Nat.div_one]
    congr 1
    omega
  | succ k ih =>
    have hd : (2 ^ 32 - 1 - v) / 2 ^ (k + 1) = (2 ^ 32 - 1 - v) / 2 ^ k / 2 := by
      rw [Nat.pow_succ 2 k, Nat.div_div_eq_div_mul]
    have hle : (2 ^ 32 - 1 - v) / 2 ^ k ≤ 2 ^ 32 - 1 := by
      have h := Nat.div_le_self (2 ^ 32 - 1 - v) (2 ^ k)
      omega
    rw [loopN_succ_last, ih, hd, if_neg (Nat.succ_ne_zero k), Nat.add_sub_cancel]
    generalize (2 ^ 32 - 1 - v) / 2 ^ k = D at hle
    rw [asrBody_sign _ _ (asr_step_lt D), asr_step_arith D hle]

/-- From 31 iterations on, the `ASR` loop on a value with the sign bit set holds all ones. -/
theorem asr_neg_saturated (v k : Nat) (hv : v < 2 ^ 32) (hs : 2 ^ 31 ≤ v) (hk : 31 ≤ k) :
    2 ^ 32 - 1 - (2 ^ 32 - 1 - v) / 2 ^ k = 0xFFFFFFFF := by
  have hlt : 2 ^ 32 - 1 - v < 2 ^ k :=
    Nat.lt_of_lt_of_le (by omega) (Nat.pow_le_pow_right (by decide) hk)
  rw [Nat.div_eq_of_lt hlt]
  rfl

/-- The `ASR` loop run for at least 32 iterations. -/
theorem asr_loop_ge_32 (v k : Nat) (c : Bool) (hv : v < 2 ^ 32) (hk : 32 ≤ k) :
    loopN (asrBody (v &&& 0x80000000)) k (v, c)
      = (if v.testBit 31 then 0xFFFFFFFF else 0, v.testBit 31) := by
  have hk0 : k ≠ 0 := by omega
  rw [and_sign_eq]
  cases hb : v.testBit 31 with
  | false =>
    have hlt : v < 2 ^ 31 := by
      rw [testBit_31_iff v hv] at hb
      simpa using hb
    have hbody : asrBody 0 = lsrBody := funext asrBody_zero
    have hbit : v.testBit (k - 1) = false :=
      Nat.testBit_lt_two_pow (Nat.lt_of_lt_of_le hlt (Nat.pow_le_pow_right (by decide) (by omega)))
    simp only [Bool.false_eq_true, if_false, hbody, lsr_loop_closed, hk0,
      shiftRight_eq_zero_of_lt v k hv hk, hbit]
  | true =>
    have hge : 2 ^ 31 ≤ v := by
      rw [testBit_31_iff v hv] at hb
      simpa using hb
    simp only [if_true, asr_loop_neg v c hv k, hk0, if_false,
      asr_neg_saturated v k hv hge (by omega), asr_neg_saturated v (k - 1) hv hge (by omega)]
    rfl

theorem shiftRight_le_self (x n : Nat) : x >>> n ≤ x := by
  rw [Nat.shiftRight_eq_div_pow]
  exact Nat.div_le_self _ _

theorem testBit_sign_lit (i : Nat) : Nat.testBit 0x80000000 i = decide (31 = i) :=
  Nat.testBit_two_pow (n := 31)

theorem rotr32_lt (v n : Nat) (hv : v < 2 ^ 32) : rotr32 v n < 2 ^ 32 := by
  unfold rotr32
  apply Nat.or_lt_two_pow
  · exact Nat.lt_of_le_of_lt (shiftRight_le_self _ _) hv
  · exact Nat.mod_lt _ (by decide)

/-- Bit `i` of the rotated value is bit `(i + n) mod 32` of the original. -/
theorem rotr32_testBit (v n i : Nat) (hv : v < 2 ^ 32) (hi : i < 32) :
    (rotr32 v n).testBit i = v.testBit ((i + n) % 32) := by
  unfold rotr32
  rw [Nat.testBit_or, Nat.testBit_shiftRight, Nat.testBit_mod_two_pow, Nat.testBit_shiftLeft]
  by_cases h : i + n % 32 < 32
  · have h1 : (i + n) % 32 = n % 32 + i := by omega
    have h2 : ¬ (i ≥ 32 - n % 32) := by omega
    simp [h1, h2]
  · have h1 : (i + n) % 32 = i - (32 - n % 32) := by omega
    have h2 : i ≥ 32 - n % 32 := by omega
    have h3 : v.testBit (n % 32 + i) = false := testBit_eq_false_of_lt v _ hv (by omega)
    simp [h1, h2, h3, hi]

theorem testBit_32_up (x i : Nat) (hx : x < 2 ^ 32) (hi : ¬ i < 32) : x.testBit i = false :=
  testBit_eq_false_of_lt x i hx (by omega)

/-- Two 32-bit values with the same low 32 bits are equal. -/
theorem eq_of_testBit_lt_32 (x y : Nat) (hx : x < 2 ^ 32) (hy : y < 2 ^ 32)
    (h : ∀ i, i < 32 → x.testBit i = y.testBit i) : x = y := by
  apply Nat.eq_of_testBit_eq
  intro i
  by_cases hi : i < 32
  · exact h i hi
  · rw [testBit_32_up x i hx hi, testBit_32_up y i hy hi]

theorem rorBody_fst_lt (x : Nat) (c : Bool) (hx : x < 2 ^ 32) : (rorBody (x, c)).1 < 2 ^ 32 := by
  simp only [rorBody]
  apply Nat.or_lt_two_pow
  · exact Nat.lt_of_le_of_lt (shiftRight_le_self _ _) hx
  · split <;> decide

theorem rorBody_fst_testBit (x i : Nat) (c : Bool) (hx : x < 2 ^ 32) (hi : i < 32) :
    (rorBody (x, c)).1.testBit i = x.testBit ((i + 1) % 32) := by
  simp only [rorBody, and_one_ne_zero, Nat.testBit_or, Nat.testBit_shiftRight]
  by_cases h : i = 31
  · subst h
    have h32 : x.testBit (1 + 31) = false := testBit_eq_false_of_lt x _ hx (by decide)
    rw [h32]
    cases hb : x.testBit 0 <;> simp [testBit_sign_lit, hb]
  · have h1 : (i + 1) % 32 = 1 + i := by omega
    rw [h1]
    cases hb : x.testBit 0 <;> simp [testBit_sign_lit, Ne.symm h]

theorem rorBody_snd (x : Nat) (c : Bool) : (rorBody (x, c)).2 = x.testBit 0 := by
  simp only [rorBody, and_one_ne_zero]
  cases x.testBit 0 <;> decide

/-- One iteration of the `ROR` loop rotates by one more position; the carry is the new bit 31. -/
theorem rorBody_rotr32 (v k : Nat) (c : Bool) (hv : v < 2 ^ 32) :
    rorBody (rotr32 v k, c) = (rotr32 v (k + 1), (rotr32 v (k + 1)).testBit 31) := by
  have hfst : (rorBody (rotr32 v k, c)).1 = rotr32 v (k + 1) := by
    apply eq_of_testBit_lt_32 _ _ (rorBody_fst_lt _ _ (rotr32_lt v k hv)) (rotr32_lt v _ hv)
    intro i hi
    rw [rorBody_fst_testBit _ _ _ (rotr32_lt v k hv) hi,
      rotr32_testBit v k _ hv (Nat.mod_lt _ (by decide)), rotr32_testBit v (k + 1) i hv hi]
    congr 1
    omega
  have hsnd : (rorBody (rotr32 v k, c)).2 = (rotr32 v (k + 1)).testBit 31 := by
    rw [rorBody_snd, rotr32_testBit v k 0 hv (by decide),
      rotr32_testBit v (k + 1) 31 hv (by decide)]
    congr 1
    omega
  exact Prod.ext hfst hsnd

theorem rotr32_zero (v : Nat) (hv : v < 2 ^ 32) : rotr32 v 0 = v := by
  apply eq_of_testBit_lt_32 _ _ (rotr32_lt v 0 hv) hv
  intro i hi
  rw [rotr32_testBit v 0 i hv hi]
  congr 1
  omega

theorem rotr32_mod (v n : Nat) : rotr32 v (n % 32) = rotr32 v n := by
  unfold rotr32
  rw [Nat.mod_mod]

/-- State of the `ROR` loop after `k` iterations. -/
theorem ror_loop_closed (v : Nat) (c : Bool) (hv : v < 2 ^ 32) (k : Nat) :
    loopN rorBody k (v, c)
      = (rotr32 v k, if k = 0 then c else (rotr32 v k).testBit 31) := by
  induction k with
  | zero =>
    show (v, c) = (rotr32 v 0, c)
    rw [rotr32_zero v hv]
  | succ k ih =>
    rw [loopN_succ_last, ih, rorBody_rotr32 v k _ hv, if_neg (Nat.succ_ne_zero k)]

/-- `ROR` by a non-zero amount below `0xFFFFFFFF`, whatever the immediate flag. -/
theorem ROR_pos (v a : Nat) (c immediate : Bool) (hv : v < 2 ^ 32) (ha0 : a ≠ 0)
    (ha : a < 0xFFFFFFFF) :
    ROR v a c immediate = some (rotr32 v a, (rotr32 v a).testBit 31) := by
  have h1 : (a != 0 || !immediate) = true := by simp [ha0]
  have h2 : ¬ a = 0xFFFFFFFF := by omega
  simp only [ROR, h1, if_true, h2, if_false, ror_loop_closed v c hv a, ha0]

theorem testBit_31_lsl (v a : Nat) (ha1 : 1 ≤ a) (ha2 : a ≤ 31) :
    ((v * 2 ^ (a - 1)) % 2 ^ 32).testBit 31 = v.testBit (32 - a) := by
  rw [testBit_31_mul_two_pow]
  have h1 : a - 1 ≤ 31 := by omega
  have h2 : 31 - (a - 1) = 32 - a := by omega
  simp [h1, h2]

/-- The single-expression `LSL` for amounts 1..31. -/
theorem LSL_expr_mid (ws : WideShift) (v a : Nat) (c : Bool) (ha1 : 1 ≤ a) (ha2 : a ≤ 31) :
    LSL_expr ws v a c = ((v * 2 ^ a) % 2 ^ 32, v.testBit (32 - a)) := by
  have hne : (a != 0) = true := by simp; omega
  have hdec : dec32 a = a - 1 := by unfold dec32; omega
  have h1 : a - 1 < 32 := by omega
  have h2 : a < 32 := by omega
  simp only [LSL_expr, hne, if_true, hdec, shl32, h1, h2, and_sign_ne_zero,
    Nat.shiftLeft_eq, testBit_31_lsl v a ha1 ha2]

/-- The loop `LSL` for amounts 1..31. -/
theorem LSL_loop_mid (v a : Nat) (c : Bool) (hv : v < 2 ^ 32) (ha1 : 1 ≤ a) (ha2 : a ≤ 31) :
    LSL_loop v a c = ((v * 2 ^ a) % 2 ^ 32, v.testBit (32 - a)) := by
  have hne : (a != 0) = true := by simp; omega
  have h0 : a ≠ 0 := by omega
  simp only [LSL_loop, hne, if_true, lsl_loop_closed v c hv a, h0, if_false,
    testBit_31_lsl v a ha1 ha2]

/-- Rotating `v * 2 ^ a` (reduced to 32 bits) right by `a` leaves the low `32 - a` bits of `v`. -/
theorem rotr32_lsl (v a : Nat) (ha1 : 1 ≤ a) (ha2 : a ≤ 31) :
    rotr32 ((v * 2 ^ a) % 2 ^ 32) a = v % 2 ^ (32 - a) := by
  have hw : (v * 2 ^ a) % 2 ^ 32 < 2 ^ 32 := Nat.mod_lt _ (by decide)
  have hr : v % 2 ^ (32 - a) < 2 ^ 32 :=
    Nat.lt_of_lt_of_le (Nat.mod_lt _ (Nat.pos_pow_of_pos _ (by decide)))
      (Nat.pow_le_pow_right (by decide) (by omega))
  apply eq_of_testBit_lt_32 _ _ (rotr32_lt _ a hw) hr
  intro i hi
  rw [rotr32_testBit _ a i hw hi, Nat.testBit_mod_two_pow, Nat.testBit_mod_two_pow,
    Nat.mul_comm, Nat.testBit_mul_pow_two]
  by_cases h : i + a < 32
  · have h1 : (i + a) % 32 = i + a := by omega
    have h2 : i < 32 - a := by omega
    simp [h1, h2, h]
  · have h1 : (i + a) % 32 = i + a - 32 := by omega
    have h2 : ¬ (i < 32 - a) := by omega
    have h3 : ¬ (a ≤ i + a - 32) := by omega
    simp [h1, h2, h3]

/-- The overflow test of `CalculateOverflowAdd` is the signed-range test. -/
theorem overflowAdd_iff (op1 op2 : Nat) (c : Bool) (h1 : op1 < 2 ^ 32) (h2 : op2 < 2 ^ 32) :
    ((op1 >>> 31 == op2 >>> 31) && (((op1 + op2 + c.toNat) % 2 ^ 32) >>> 31 != op2 >>> 31))
      = decide (int32 op1 + int32 op2 + (c.toNat : Int) < -2 ^ 31
          ∨ 2 ^ 31 - 1 < int32 op1 + int32 op2 + (c.toNat : Int)) := by
  rw [Bool.eq_iff_iff]
  simp only [Bool.and_eq_true, beq_iff_eq, bne_iff_ne, decide_eq_true_eq,
    Nat.shiftRight_eq_div_pow, int32]
  cases c <;> simp only [Bool.toNat_false, Bool.toNat_true] <;> split_ifs <;> omega

/-- `CalculateOverflowAdd` writes its overflow test into bit 28. -/
theorem CalculateOverflowAdd_bit28 (cpsr result op1 op2 : Nat) :
    (CalculateOverflowAdd cpsr result op1 op2).testBit 28
      = ((op1 >>> 31 == op2 >>> 31) && (result >>> 31 != op2 >>> 31)) := by
  have hset : Nat.testBit OverflowFlag 28 = true := by decide
  have hclr : Nat.testBit (not32 OverflowFlag) 28 = false := by decide
  unfold CalculateOverflowAdd
  cases ((op1 >>> 31 == op2 >>> 31) && (result >>> 31 != op2 >>> 31))
  · simp [Nat.testBit_and, hclr]
  · simp [Nat.testBit_or, hset]

end ARM7

/-! ## Claims about the shifter -/

/-- C1: for a 32-bit value `v`, any carry-in and `1 ≤ a ≤ 31`, both non-assembly variants of
`LSL` return `(v * 2 ^ a) mod 2 ^ 32` with carry-out bit `32 - a` of `v`; hence they agree. -/
theorem C1_LSL_amount_1_to_31 (ws : WideShift) (v a : Nat) (c : Bool)
    (hv : v < 2 ^ 32) (ha1 : 1 ≤ a) (ha2 : a ≤ 31) :
    ARM7.LSL_expr ws v a c = ((v * 2 ^ a) % 2 ^ 32, v.testBit (32 - a)) ∧
    ARM7.LSL_loop v a c = ((v * 2 ^ a) % 2 ^ 32, v.testBit (32 - a)) ∧
    ARM7.LSL_expr ws v a c = ARM7.LSL_loop v a c := by
  have hexpr := ARM7.LSL_expr_mid ws v a c ha1 ha2
  have hloop := ARM7.LSL_loop_mid v a c hv ha1 ha2
  exact ⟨hexpr, hloop, hexpr.trans hloop.symm⟩

/-- Instance of C1 at `v = 0x80000001`, `a = 1`. -/
theorem C1_LSL_amount_1_to_31_witness :
    ARM7.LSL_expr WideShift.masked 0x80000001 1 false
        = ((0x80000001 * 2 ^ 1) % 2 ^ 32, Nat.testBit 0x80000001 (32 - 1)) ∧
    ARM7.LSL_loop 0x80000001 1 false
        = ((0x80000001 * 2 ^ 1) % 2 ^ 32, Nat.testBit 0x80000001 (32 - 1)) ∧
    ARM7.LSL_expr WideShift.masked 0x80000001 1 false = ARM7.LSL_loop 0x80000001 1 false :=
  C1_LSL_amount_1_to_31 WideShift.masked 0x80000001 1 false (by decide) (by decide) (by decide)

/-- C2: in the loop variant of `LSL`, for a 32-bit `v` and any carry-in, amount 32 gives result 0
with carry-out bit 0 of `v`, and every larger amount gives result 0 with carry-out 0. -/
theorem C2_LSL_loop_amount_ge_32 (v a : Nat) (c : Bool) (hv : v < 2 ^ 32)
    (ha : 32 ≤ a) (ha2 : a ≤ 255) :
    ARM7.LSL_loop v a c = (0, decide (a = 32) && v.testBit 0) := by
  have hne : (a != 0) = true := by simp; omega
  have h0 : a ≠ 0 := by omega
  simp only [ARM7.LSL_loop, hne, if_true, ARM7.lsl_loop_closed v c hv a, h0, if_false,
    ARM7.mul_two_pow_mod_eq_zero v a ha, ARM7.testBit_31_mul_two_pow]
  by_cases h32 : a = 32
  · subst h32; simp
  · have h1 : ¬ (a - 1 ≤ 31) := by omega
    simp [h1, h32]

/-- Instance of C2 at `v = 3`, `a = 32`. -/
theorem C2_LSL_loop_amount_ge_32_witness :
    ARM7.LSL_loop 3 32 false = (0, decide (32 = 32) && Nat.testBit 3 0) :=
  C2_LSL_loop_amount_ge_32 3 32 false (by decide) (by decide) (by decide)

/-- C3: in the loop variant of `LSR`, for a 32-bit `v` and any carry-in, amount 32 (explicit, or
immediate amount 0) gives result 0 with carry-out bit 31 of `v`, and every larger amount gives
result 0 with carry-out 0. -/
theorem C3_LSR_loop_amount_ge_32 (v a : Nat) (c immediate : Bool) (hv : v < 2 ^ 32)
    (ha : 32 ≤ a) (ha2 : a ≤ 255) :
    ARM7.LSR_loop v 0 c true = (0, v.testBit 31) ∧
    ARM7.LSR_loop v a c immediate = (0, decide (a = 32) && v.testBit 31) := by
  constructor
  · simp [ARM7.LSR_loop, ARM7.immAmount, ARM7.lsr_loop_closed,
      ARM7.shiftRight_eq_zero_of_lt v 32 hv (Nat.le_refl 32)]
  · have h0 : a ≠ 0 := by omega
    have himm : ARM7.immAmount a immediate = a := by simp [ARM7.immAmount, h0]
    simp only [ARM7.LSR_loop, himm, ARM7.lsr_loop_closed, h0, if_false,
      ARM7.shiftRight_eq_zero_of_lt v a hv ha]
    by_cases h32 : a = 32
    · subst h32; simp
    · have h1 : 32 ≤ a - 1 := by omega
      simp [h32, ARM7.testBit_eq_false_of_lt v (a - 1) hv h1]

/-- Instance of C3 at `v = 0x80000000`, `a = 33`. -/
theorem C3_LSR_loop_amount_ge_32_witness :
    ARM7.LSR_loop 0x80000000 0 false true = (0, Nat.testBit 0x80000000 31) ∧
    ARM7.LSR_loop 0x80000000 33 false false
      = (0, decide (33 = 32) && Nat.testBit 0x80000000 31) :=
  C3_LSR_loop_amount_ge_32 0x80000000 33 false false (by decide) (by decide) (by decide)

/-- C4 fails as stated: `LSR` of the value 1 with the immediate flag set and amount 0 does not
yield carry-out 1 in either non-assembly variant, whatever the carry-in. -/
theorem C4_LSR_imm0_of_one_counterexample :
    ARM7.LSR_loop 1 0 false true ≠ (0, true) ∧
    ARM7.LSR_loop 1 0 true true ≠ (0, true) ∧
    (∀ (ws : WideShift) (c : Bool), ARM7.LSR_expr ws 1 0 c true ≠ (0, true)) := by
  refine ⟨by decide, by decide, ?_⟩
  intro ws c h
  have h2 : (ARM7.LSR_expr ws 1 0 c true).2 = true := by rw [h]
  revert h2
  simp [ARM7.LSR_expr, ARM7.immAmount, dec32, shr32]

/-- C4 (amended): `LSR` of the value 1 with the immediate flag set and amount 0 yields carry-out 0,
which is bit 31 of the value, in both non-assembly variants, and result 0 in the loop variant. -/
theorem C4_LSR_imm0_of_one (ws : WideShift) (c : Bool) :
    ARM7.LSR_loop 1 0 c true = (0, false) ∧
    (ARM7.LSR_expr ws 1 0 c true).2 = false ∧
    Nat.testBit 1 31 = false := by
  refine ⟨?_, ?_, by decide⟩
  · cases c <;> decide
  · simp [ARM7.LSR_expr, ARM7.immAmount, dec32, shr32]

/-- C5, the code at the failing input: with a register-specified amount of 0, `LSL` (both
variants), the loop variant of `LSR`, `ASR` and `ROR` return value and carry unchanged, but the
single-expression variant of `LSR` assigns the carry from the shift `operand >> 0xFFFFFFFF`, so
its carry-out does not depend on the carry-in and for one of the two carry-ins it differs. -/
theorem C5_register_amount_zero (ws : WideShift) (v : Nat) (c : Bool) :
    ARM7.LSL_expr ws v 0 c = (v, c) ∧
    ARM7.LSL_loop v 0 c = (v, c) ∧
    ARM7.LSR_loop v 0 c false = (v, c) ∧
    ARM7.ASR v 0 c false = (v, c) ∧
    ARM7.ROR v 0 c false = some (v, c) ∧
    ARM7.LSR_expr ws v 0 c false
      = (v, (ws.shr v 0xFFFFFFFF % 2 ^ 32).testBit 0) ∧
    ARM7.LSR_expr ws v 0 (!(ws.shr v 0xFFFFFFFF % 2 ^ 32).testBit 0) false
      ≠ (v, !(ws.shr v 0xFFFFFFFF % 2 ^ 32).testBit 0) ∧
    ARM7.LSR_expr WideShift.masked 1 0 true false = (1, false) := by
  have hexpr : ∀ c0 : Bool, ARM7.LSR_expr ws v 0 c0 false
      = (v, (ws.shr v 0xFFFFFFFF % 2 ^ 32).testBit 0) := by
    intro c0
    have hd : dec32 0 = 0xFFFFFFFF := by decide
    rw [← and_one_ne_zero]
    simp [ARM7.LSR_expr, ARM7.immAmount, shr32, hd]
  refine ⟨rfl, rfl, rfl, rfl, rfl, hexpr c, ?_, by decide⟩
  rw [hexpr]
  intro h
  have h2 := congrArg Prod.snd h
  simp at h2

/-- C6: for a 32-bit `v` and any carry-in, `ASR` with immediate amount 0 and `ASR` with any amount
`a ≥ 32` return `0xFFFFFFFF` when bit 31 of `v` is set and 0 otherwise, with carry-out bit 31
of `v`. -/
theorem C6_ASR_amount_ge_32 (v a : Nat) (c immediate : Bool) (hv : v < 2 ^ 32)
    (ha : 32 ≤ a) (ha2 : a ≤ 255) :
    ARM7.ASR v 0 c true = (if v.testBit 31 then 0xFFFFFFFF else 0, v.testBit 31) ∧
    ARM7.ASR v a c immediate = (if v.testBit 31 then 0xFFFFFFFF else 0, v.testBit 31) := by
  constructor
  · exact ARM7.asr_loop_ge_32 v 32 c hv (Nat.le_refl 32)
  · have h0 : a ≠ 0 := by omega
    have himm : ARM7.immAmount a immediate = a := by simp [ARM7.immAmount, h0]
    simp only [ARM7.ASR, himm]
    exact ARM7.asr_loop_ge_32 v a c hv ha

/-- Instance of C6 at `v = 0x80000001`, `a = 40`. -/
theorem C6_ASR_amount_ge_32_witness :
    ARM7.ASR 0x80000001 0 false true
      = (if Nat.testBit 0x80000001 31 then 0xFFFFFFFF else 0, Nat.testBit 0x80000001 31) ∧
    ARM7.ASR 0x80000001 40 false false
      = (if Nat.testBit 0x80000001 31 then 0xFFFFFFFF else 0, Nat.testBit 0x80000001 31) :=
  C6_ASR_amount_ge_32 0x80000001 40 false false (by decide) (by decide) (by decide)

/-- C7: `ROR` with the immediate flag set and amount 0 is RRX: the result is
`(v >> 1) | (c << 31)` and the carry-out is bit 0 of `v`. -/
theorem C7_ROR_imm0_is_RRX (v : Nat) (c : Bool) :
    ARM7.ROR v 0 c true = some ((v >>> 1) ||| (c.toNat <<< 31), v.testBit 0) := by
  cases c
  · rw [← and_one_ne_zero]; rfl
  · rw [← and_one_ne_zero]; rfl

/-- C8 fails as stated: `ROR` of 0 by the register amount 64 with carry-in 1 clears the carry,
while `ROR` by `64 mod 32 = 0` leaves it set. -/
theorem C8_ROR_mod_32_counterexample :
    ARM7.ROR 0 64 true false = some (0, false) ∧
    ARM7.ROR 0 (64 % 32) true false = some (0, true) ∧
    ARM7.ROR 0 64 true false ≠ ARM7.ROR 0 (64 % 32) true false := by
  decide

/-- C8 (amended): for a 32-bit `v`, any carry-in and a register-specified amount `a` with
`32 < a ≤ 255`, `ROR` by `a` produces the same value as `ROR` by `a mod 32`; it also produces the
same carry-out when `a mod 32 ≠ 0`, and when `a mod 32 = 0` it returns `v` with carry-out bit 31
of `v`. -/
theorem C8_ROR_register_amount_gt_32 (v a : Nat) (c : Bool) (hv : v < 2 ^ 32)
    (ha : 32 < a) (ha2 : a ≤ 255) :
    Option.map Prod.fst (ARM7.ROR v a c false)
      = Option.map Prod.fst (ARM7.ROR v (a % 32) c false) ∧
    ARM7.ROR v a c false
      = (if a % 32 = 0 then some (v, v.testBit 31) else ARM7.ROR v (a % 32) c false) := by
  have hbig : ARM7.ROR v a c false = some (rotr32 v a, (rotr32 v a).testBit 31) :=
    ARM7.ROR_pos v a c false hv (by omega) (by omega)
  by_cases hm : a % 32 = 0
  · have hrot : rotr32 v a = v := by
      rw [← ARM7.rotr32_mod, hm, ARM7.rotr32_zero v hv]
    have hzero : ARM7.ROR v 0 c false = some (v, c) := rfl
    rw [hbig, hm, hzero, hrot]
    simp
  · have hsmall : ARM7.ROR v (a % 32) c false = some (rotr32 v a, (rotr32 v a).testBit 31) := by
      rw [ARM7.ROR_pos v (a % 32) c false hv hm (by omega), ARM7.rotr32_mod]
    rw [hbig, hsmall]
    simp [hm]

/-- Instance of the amended C8 at `v = 1`, `a = 33`. -/
theorem C8_ROR_register_amount_gt_32_witness :
    Option.map Prod.fst (ARM7.ROR 1 33 true false)
      = Option.map Prod.fst (ARM7.ROR 1 (33 % 32) true false) ∧
    ARM7.ROR 1 33 true false
      = (if 33 % 32 = 0 then some (1, Nat.testBit 1 31) else ARM7.ROR 1 (33 % 32) true false) :=
  C8_ROR_register_amount_gt_32 1 33 true (by decide) (by decide) (by decide)

/-- C9: for a 32-bit `v` and `1 ≤ a ≤ 31`, `LSL` by `a` (either non-assembly variant) followed by
`ROR` by `a` yields `v & (2 ^ (32 - a) - 1)`, the low `32 - a` bits of `v`. -/
theorem C9_ROR_after_LSL (ws : WideShift) (v a : Nat) (c immediate : Bool)
    (hv : v < 2 ^ 32) (ha1 : 1 ≤ a) (ha2 : a ≤ 31) :
    Option.map Prod.fst
        (ARM7.ROR (ARM7.LSL_loop v a c).1 a (ARM7.LSL_loop v a c).2 immediate)
      = some (v &&& (2 ^ (32 - a) - 1)) ∧
    Option.map Prod.fst
        (ARM7.ROR (ARM7.LSL_expr ws v a c).1 a (ARM7.LSL_expr ws v a c).2 immediate)
      = some (v &&& (2 ^ (32 - a) - 1)) := by
  have hw : (v * 2 ^ a) % 2 ^ 32 < 2 ^ 32 := Nat.mod_lt _ (by decide)
  rw [ARM7.LSL_expr_mid ws v a c ha1 ha2, ARM7.LSL_loop_mid v a c hv ha1 ha2,
    ARM7.ROR_pos _ a _ immediate hw (by omega) (by omega), ARM7.rotr32_lsl v a ha1 ha2,
    Nat.and_pow_two_sub_one_eq_mod]
  simp

/-- Instance of C9 at `v = 0xDEADBEEF`, `a = 12`. -/
theorem C9_ROR_after_LSL_witness :
    Option.map Prod.fst
        (ARM7.ROR (ARM7.LSL_loop 0xDEADBEEF 12 false).1 12
          (ARM7.LSL_loop 0xDEADBEEF 12 false).2 false)
      = some (0xDEADBEEF &&& (2 ^ (32 - 12) - 1)) ∧
    Option.map Prod.fst
        (ARM7.ROR (ARM7.LSL_expr WideShift.masked 0xDEADBEEF 12 false).1 12
          (ARM7.LSL_expr WideShift.masked 0xDEADBEEF 12 false).2 false)
      = some (0xDEADBEEF &&& (2 ^ (32 - 12) - 1)) :=
  C9_ROR_after_LSL WideShift.masked 0xDEADBEEF 12 false false (by decide) (by decide) (by decide)

/-! ## Claims about the condition flags -/

/-- C10: for 32-bit `op1`, `op2` and a carry-in `c`, with `result = (op1 + op2 + c) mod 2 ^ 32`,
`CalculateOverflowAdd` sets CPSR bit 28 exactly when the signed sum `int32 op1 + int32 op2 + c`
lies outside `[-2 ^ 31, 2 ^ 31 - 1]`; for `op1 = op2 = 0xFF000000` bit 28 is clear. -/
theorem C10_CalculateOverflowAdd (cpsr op1 op2 : Nat) (c : Bool)
    (h1 : op1 < 2 ^ 32) (h2 : op2 < 2 ^ 32) :
    (ARM7.CalculateOverflowAdd cpsr ((op1 + op2 + c.toNat) % 2 ^ 32) op1 op2).testBit 28
      = decide (int32 op1 + int32 op2 + (c.toNat : Int) < -2 ^ 31
          ∨ 2 ^ 31 - 1 < int32 op1 + int32 op2 + (c.toNat : Int)) ∧
    (0xFF000000 + 0xFF000000) % 2 ^ 32 = 0xFE000000 ∧
    (ARM7.CalculateOverflowAdd cpsr 0xFE000000 0xFF000000 0xFF000000).testBit 28 = false := by
  refine ⟨?_, by decide, ?_⟩
  · rw [ARM7.CalculateOverflowAdd_bit28, ARM7.overflowAdd_iff op1 op2 c h1 h2]
  · rw [ARM7.CalculateOverflowAdd_bit28]
    decide

/-- Instance of C10 at `op1 = op2 = 0x80000000` without carry-in, where the flag is set. -/
theorem C10_CalculateOverflowAdd_witness :
    (ARM7.CalculateOverflowAdd 0x1F ((0x80000000 + 0x80000000 + false.toNat) % 2 ^ 32)
        0x80000000 0x80000000).testBit 28
      = decide (int32 0x80000000 + int32 0x80000000 + (false.toNat : Int) < -2 ^ 31
          ∨ 2 ^ 31 - 1 < int32 0x80000000 + int32 0x80000000 + (false.toNat : Int)) ∧
    (0xFF000000 + 0xFF000000) % 2 ^ 32 = 0xFE000000 ∧
    (ARM7.CalculateOverflowAdd 0x1F 0xFE000000 0xFF000000 0xFF000000).testBit 28 = false :=
  C10_CalculateOverflowAdd 0x1F 0x80000000 0x80000000 false (by decide) (by decide)

namespace ARM7

/-- The overflow test of `CalculateOverflowSub` is the signed-range test. -/
theorem overflowSub_iff (op1 op2 : Nat) (b : Bool) (h1 : op1 < 2 ^ 32) (h2 : op2 < 2 ^ 32) :
    ((op1 >>> 31 != op2 >>> 31) && ((sub32 (sub32 op1 op2) b.toNat) >>> 31 == op2 >>> 31))
      = decide (int32 op1 - int32 op2 - (b.toNat : Int) < -2 ^ 31
          ∨ 2 ^ 31 - 1 < int32 op1 - int32 op2 - (b.toNat : Int)) := by
  rw [Bool.eq_iff_iff]
  simp only [Bool.and_eq_true, beq_iff_eq, bne_iff_ne, decide_eq_true_eq,
    Nat.shiftRight_eq_div_pow, int32, sub32]
  cases b <;> simp only [Bool.toNat_false, Bool.toNat_true] <;> split_ifs <;> omega

/-- The `u32` difference is the integer difference reduced modulo `2 ^ 32`. -/
theorem sub32_sub32_eq (op1 op2 : Nat) (b : Bool) :
    ((sub32 (sub32 op1 op2) b.toNat : Nat) : Int)
      = ((op1 : Int) - (op2 : Int) - (b.toNat : Int)) % 2 ^ 32 := by
  simp only [sub32]
  cases b <;> simp only [Bool.toNat_false, Bool.toNat_true] <;> omega

/-- `CalculateOverflowSub` writes its overflow test into bit 28. -/
theorem CalculateOverflowSub_bit28 (cpsr result op1 op2 : Nat) :
    (CalculateOverflowSub cpsr result op1 op2).testBit 28
      = ((op1 >>> 31 != op2 >>> 31) && (result >>> 31 == op2 >>> 31)) := by
  have hset : Nat.testBit OverflowFlag 28 = true := by decide
  have hclr : Nat.testBit (not32 OverflowFlag) 28 = false := by decide
  unfold CalculateOverflowSub
  cases ((op1 >>> 31 != op2 >>> 31) && (result >>> 31 == op2 >>> 31))
  · simp [Nat.testBit_and, hclr]
  · simp [Nat.testBit_or, hset]

end ARM7

/-- C11: for 32-bit `op1`, `op2` and a borrow `b`, with `result = (op1 - op2 - b) mod 2 ^ 32`,
`CalculateOverflowSub` sets CPSR bit 28 exactly when the signed difference
`int32 op1 - int32 op2 - b` lies outside `[-2 ^ 31, 2 ^ 31 - 1]`; for `op1 = 0x80000000`,
`op2 = 1` (result `0x7FFFFFFF`) bit 28 is set. -/
theorem C11_CalculateOverflowSub (cpsr op1 op2 : Nat) (b : Bool)
    (h1 : op1 < 2 ^ 32) (h2 : op2 < 2 ^ 32) :
    ((sub32 (sub32 op1 op2) b.toNat : Nat) : Int)
      = ((op1 : Int) - (op2 : Int) - (b.toNat : Int)) % 2 ^ 32 ∧
    (ARM7.CalculateOverflowSub cpsr (sub32 (sub32 op1 op2) b.toNat) op1 op2).testBit 28
      = decide (int32 op1 - int32 op2 - (b.toNat : Int) < -2 ^ 31
          ∨ 2 ^ 31 - 1 < int32 op1 - int32 op2 - (b.toNat : Int)) ∧
    sub32 0x80000000 1 = 0x7FFFFFFF ∧
    (ARM7.CalculateOverflowSub cpsr 0x7FFFFFFF 0x80000000 1).testBit 28 = true := by
  refine ⟨ARM7.sub32_sub32_eq op1 op2 b, ?_, by decide, ?_⟩
  · rw [ARM7.CalculateOverflowSub_bit28, ARM7.overflowSub_iff op1 op2 b h1 h2]
  · rw [ARM7.CalculateOverflowSub_bit28]
    decide

/-- Instance of C11 at `op1 = 0`, `op2 = 0x80000000` with borrow, where the flag is clear. -/
theorem C11_CalculateOverflowSub_witness :
    ((sub32 (sub32 0 0x80000000) true.toNat : Nat) : Int)
      = (((0 : Nat) : Int) - ((0x80000000 : Nat) : Int) - (true.toNat : Int)) % 2 ^ 32 ∧
    (ARM7.CalculateOverflowSub 0x1F (sub32 (sub32 0 0x80000000) true.toNat) 0
        0x80000000).testBit 28
      = decide (int32 0 - int32 0x80000000 - (true.toNat : Int) < -2 ^ 31
          ∨ 2 ^ 31 - 1 < int32 0 - int32 0x80000000 - (true.toNat : Int)) ∧
    sub32 0x80000000 1 = 0x7FFFFFFF ∧
    (ARM7.CalculateOverflowSub 0x1F 0x7FFFFFFF 0x80000000 1).testBit 28 = true :=
  C11_CalculateOverflowSub 0x1F 0 0x80000000 true (by decide) (by decide)

namespace ARM7

theorem testBit_not32_two_pow (k i : Nat) (hk : k < 32) :
    (not32 (2 ^ k)).testBit i = (decide (i < 32) && !decide (k = i)) := by
  have hff : (0xFFFFFFFF : Nat) = 2 ^ 32 - 1 := by decide
  unfold not32
  rw [Nat.testBit_xor, hff, Nat.testBit_two_pow_sub_one, Nat.testBit_two_pow]
  by_cases h1 : i < 32 <;> by_cases h2 : k = i <;> simp [h1, h2]
  omega

/-- Writing a Boolean into bit `k` of a 32-bit word by `|` with the flag or `&` with its
complement: bit `k` becomes the Boolean, every other bit stays. -/
theorem ite_flag_testBit (cpsr k i : Nat) (b : Bool) (hk : k < 32) (hc : cpsr < 2 ^ 32) :
    (if b = true then cpsr ||| 2 ^ k else cpsr &&& not32 (2 ^ k)).testBit i
      = if i = k then b else cpsr.testBit i := by
  cases b
  · simp only [Bool.false_eq_true, if_false, Nat.testBit_and, testBit_not32_two_pow k i hk]
    by_cases h : i = k
    · subst h; simp
    · by_cases h32 : i < 32
      · simp [h, h32, Ne.symm h]
      · simp [h, h32, testBit_32_up cpsr i hc h32]
  · simp only [if_true, Nat.testBit_or, Nat.testBit_two_pow]
    by_cases h : i = k
    · subst h; simp
    · simp [h, Ne.symm h]

theorem ite_flag_bit (cpsr k : Nat) (b : Bool) (hk : k < 32) (hc : cpsr < 2 ^ 32) :
    (if b = true then cpsr ||| 2 ^ k else cpsr &&& not32 (2 ^ k)).testBit k = b := by
  rw [ite_flag_testBit cpsr k k b hk hc, if_pos rfl]

theorem ite_flag_frame (cpsr k : Nat) (b : Bool) (hk : k < 32) (hc : cpsr < 2 ^ 32) :
    OnlyBitChanged k cpsr (if b = true then cpsr ||| 2 ^ k else cpsr &&& not32 (2 ^ k)) := by
  intro i hi
  rw [ite_flag_testBit cpsr k i b hk hc, if_neg hi]

/-- An update that leaves every bit below 8 alone leaves the mode field and the T, F and I
bits alone. -/
theorem low_byte_of_onlyBitChanged (k old new : Nat) (hk : 8 ≤ k)
    (h : OnlyBitChanged k old new) : new &&& 0xFF = old &&& 0xFF := by
  have hff : (0xFF : Nat) = 2 ^ 8 - 1 := by decide
  apply Nat.eq_of_testBit_eq
  intro i
  rw [Nat.testBit_and, Nat.testBit_and, hff, Nat.testBit_two_pow_sub_one]
  by_cases hi : i < 8
  · rw [h i (by omega)]
  · simp [hi]

theorem CalculateSign_eq (cpsr r : Nat) :
    CalculateSign cpsr r
      = if r.testBit 31 = true then cpsr ||| 2 ^ 31 else cpsr &&& not32 (2 ^ 31) := by
  unfold CalculateSign
  rw [and_sign_ne_zero]
  rfl

theorem CalculateZero_eq (cpsr r : Nat) :
    CalculateZero cpsr r
      = if (r == 0) = true then cpsr ||| 2 ^ 30 else cpsr &&& not32 (2 ^ 30) := rfl

theorem AssertCarry_eq (cpsr : Nat) (c : Bool) :
    AssertCarry cpsr c = if c = true then cpsr ||| 2 ^ 29 else cpsr &&& not32 (2 ^ 29) := rfl

theorem CalculateOverflowAdd_eq (cpsr r op1 op2 : Nat) :
    CalculateOverflowAdd cpsr r op1 op2
      = if ((op1 >>> 31 == op2 >>> 31) && (r >>> 31 != op2 >>> 31)) = true
          then cpsr ||| 2 ^ 28 else cpsr &&& not32 (2 ^ 28) := rfl

theorem CalculateOverflowSub_eq (cpsr r op1 op2 : Nat) :
    CalculateOverflowSub cpsr r op1 op2
      = if ((op1 >>> 31 != op2 >>> 31) && (r >>> 31 == op2 >>> 31)) = true
          then cpsr ||| 2 ^ 28 else cpsr &&& not32 (2 ^ 28) := rfl

end ARM7

/-- C12: on a 32-bit CPSR, `CalculateSign r` makes bit 31 equal to bit 31 of `r`,
`CalculateZero r` makes bit 30 equal to `r == 0`, `AssertCarry c` makes bit 29 equal to `c`, and
each of them, like the two overflow helpers for bit 28, leaves every other bit unchanged, in
particular the low byte that holds the mode field and the T, F and I bits. -/
theorem C12_flag_helpers_frame (cpsr r op1 op2 : Nat) (c : Bool) (hc : cpsr < 2 ^ 32) :
    ((ARM7.CalculateSign cpsr r).testBit 31 = r.testBit 31 ∧
      OnlyBitChanged 31 cpsr (ARM7.CalculateSign cpsr r) ∧
      ARM7.CalculateSign cpsr r &&& 0xFF = cpsr &&& 0xFF) ∧
    ((ARM7.CalculateZero cpsr r).testBit 30 = decide (r = 0) ∧
      OnlyBitChanged 30 cpsr (ARM7.CalculateZero cpsr r) ∧
      ARM7.CalculateZero cpsr r &&& 0xFF = cpsr &&& 0xFF) ∧
    ((ARM7.AssertCarry cpsr c).testBit 29 = c ∧
      OnlyBitChanged 29 cpsr (ARM7.AssertCarry cpsr c) ∧
      ARM7.AssertCarry cpsr c &&& 0xFF = cpsr &&& 0xFF) ∧
    (OnlyBitChanged 28 cpsr (ARM7.CalculateOverflowAdd cpsr r op1 op2) ∧
      ARM7.CalculateOverflowAdd cpsr r op1 op2 &&& 0xFF = cpsr &&& 0xFF) ∧
    (OnlyBitChanged 28 cpsr (ARM7.CalculateOverflowSub cpsr r op1 op2) ∧
      ARM7.CalculateOverflowSub cpsr r op1 op2 &&& 0xFF = cpsr &&& 0xFF) := by
  have hS := ARM7.ite_flag_frame cpsr 31 (r.testBit 31) (by decide) hc
  have hZ := ARM7.ite_flag_frame cpsr 30 (r == 0) (by decide) hc
  have hC := ARM7.ite_flag_frame cpsr 29 c (by decide) hc
  have hA := ARM7.ite_flag_frame cpsr 28
    ((op1 >>> 31 == op2 >>> 31) && (r >>> 31 != op2 >>> 31)) (by decide) hc
  have hB := ARM7.ite_flag_frame cpsr 28
    ((op1 >>> 31 != op2 >>> 31) && (r >>> 31 == op2 >>> 31)) (by decide) hc
  rw [← ARM7.CalculateSign_eq] at hS
  rw [← ARM7.CalculateZero_eq] at hZ
  rw [← ARM7.AssertCarry_eq] at hC
  rw [← ARM7.CalculateOverflowAdd_eq] at hA
  rw [← ARM7.CalculateOverflowSub_eq] at hB
  refine ⟨⟨?_, hS, ARM7.low_byte_of_onlyBitChanged 31 _ _ (by decide) hS⟩,
    ⟨?_, hZ, ARM7.low_byte_of_onlyBitChanged 30 _ _ (by decide) hZ⟩,
    ⟨?_, hC, ARM7.low_byte_of_onlyBitChanged 29 _ _ (by decide) hC⟩,
    ⟨hA, ARM7.low_byte_of_onlyBitChanged 28 _ _ (by decide) hA⟩,
    ⟨hB, ARM7.low_byte_of_onlyBitChanged 28 _ _ (by decide) hB⟩⟩
  · rw [ARM7.CalculateSign_eq, ARM7.ite_flag_bit cpsr 31 _ (by decide) hc]
  · rw [ARM7.CalculateZero_eq, ARM7.ite_flag_bit cpsr 30 _ (by decide) hc]
    by_cases h : r = 0
    · subst h; rfl
    · rw [decide_eq_false h]
      exact beq_false_of_ne h
  · rw [ARM7.AssertCarry_eq, ARM7.ite_flag_bit cpsr 29 _ (by decide) hc]

/-- Instance of C12 at `cpsr = 0xF00000FF`, `r = 0`, with the carry cleared. -/
theorem C12_flag_helpers_frame_witness :
    ((ARM7.CalculateSign 0xF00000FF 0).testBit 31 = Nat.testBit 0 31 ∧
      OnlyBitChanged 31 0xF00000FF (ARM7.CalculateSign 0xF00000FF 0) ∧
      ARM7.CalculateSign 0xF00000FF 0 &&& 0xFF = 0xF00000FF &&& 0xFF) ∧
    ((ARM7.CalculateZero 0xF00000FF 0).testBit 30 = decide (0 = 0) ∧
      OnlyBitChanged 30 0xF00000FF (ARM7.CalculateZero 0xF00000FF 0) ∧
      ARM7.CalculateZero 0xF00000FF 0 &&& 0xFF = 0xF00000FF &&& 0xFF) ∧
    ((ARM7.AssertCarry 0xF00000FF false).testBit 29 = false ∧
      OnlyBitChanged 29 0xF00000FF (ARM7.AssertCarry 0xF00000FF false) ∧
      ARM7.AssertCarry 0xF00000FF false &&& 0xFF = 0xF00000FF &&& 0xFF) ∧
    (OnlyBitChanged 28 0xF00000FF (ARM7.CalculateOverflowAdd 0xF00000FF 0 1 2) ∧
      ARM7.CalculateOverflowAdd 0xF00000FF 0 1 2 &&& 0xFF = 0xF00000FF &&& 0xFF) ∧
    (OnlyBitChanged 28 0xF00000FF (ARM7.CalculateOverflowSub 0xF00000FF 0 1 2) ∧
      ARM7.CalculateOverflowSub 0xF00000FF 0 1 2 &&& 0xFF = 0xF00000FF &&& 0xFF) :=
  C12_flag_helpers_frame 0xF00000FF 0 1 2 false (by decide)

/-! ## Claims about register banking -/

namespace ARM7

/-- The view `RemapRegisters` produces for a defined mode, as a function of the mode field. -/
theorem RemapRegisters_defined (cpsr : Nat) (v : RegView)
    (hmode : cpsr &&& 0x1F ∈ [0x10, 0x11, 0x12, 0x13, 0x17, 0x1B, 0x1F]) :
    (RemapRegisters cpsr v).r8_to_r12
      = (if cpsr &&& 0x1F = 0x11
          then [Reg.r8_fiq, Reg.r9_fiq, Reg.r10_fiq, Reg.r11_fiq, Reg.r12_fiq]
          else [Reg.r8, Reg.r9, Reg.r10, Reg.r11, Reg.r12]) ∧
    (RemapRegisters cpsr v).r13_r14
      = (if cpsr &&& 0x1F = 0x11 then (Reg.r13_fiq, Reg.r14_fiq)
          else if cpsr &&& 0x1F = 0x12 then (Reg.r13_irq, Reg.r14_irq)
          else if cpsr &&& 0x1F = 0x13 then (Reg.r13_svc, Reg.r14_svc)
          else if cpsr &&& 0x1F = 0x17 then (Reg.r13_abt, Reg.r14_abt)
          else if cpsr &&& 0x1F = 0x1B then (Reg.r13_und, Reg.r14_und)
          else (Reg.r13, Reg.r14)) ∧
    (RemapRegisters cpsr v).pspsr
      = (if cpsr &&& 0x1F = 0x11 then some SpsrCell.spsr_fiq
          else if cpsr &&& 0x1F = 0x12 then some SpsrCell.spsr_irq
          else if cpsr &&& 0x1F = 0x13 then some SpsrCell.spsr_svc
          else if cpsr &&& 0x1F = 0x17 then some SpsrCell.spsr_abt
          else if cpsr &&& 0x1F = 0x1B then some SpsrCell.spsr_und
          else some SpsrCell.spsr_def) := by
  unfold RemapRegisters
  simp only [List.mem_cons, List.mem_singleton, List.not_mem_nil, or_false] at hmode
  rcases hmode with h | h | h | h | h | h | h <;> rw [h] <;> exact ⟨rfl, rfl, rfl⟩

end ARM7

/-- C13: for each of the seven defined modes, after `RemapRegisters` the visible `r8`-`r12` select
the FIQ copies exactly in FIQ mode and the base copies otherwise; `r13` and `r14` select the
private copies of FIQ, IRQ, SVC, Abort and Undefined in those modes (pairwise distinct pairs,
distinct from the base pair) and the base copies in User and System; the selected SPSR is the
mode's own one in those five modes; and the mapping of `r8`-`r14` and the SPSR depends on the mode
field only, not on the mapping before the call. -/
theorem C13_RemapRegisters_banks (cpsr cpsr2 : Nat) (v v2 : ARM7.RegView)
    (hmode : cpsr &&& 0x1F ∈ [0x10, 0x11, 0x12, 0x13, 0x17, 0x1B, 0x1F])
    (hsame : cpsr2 &&& 0x1F = cpsr &&& 0x1F) :
    (ARM7.RemapRegisters cpsr v).r8_to_r12
      = (if cpsr &&& 0x1F = 0x11
          then [ARM7.Reg.r8_fiq, ARM7.Reg.r9_fiq, ARM7.Reg.r10_fiq, ARM7.Reg.r11_fiq,
            ARM7.Reg.r12_fiq]
          else [ARM7.Reg.r8, ARM7.Reg.r9, ARM7.Reg.r10, ARM7.Reg.r11, ARM7.Reg.r12]) ∧
    (ARM7.RemapRegisters cpsr v).r13_r14
      = (if cpsr &&& 0x1F = 0x11 then (ARM7.Reg.r13_fiq, ARM7.Reg.r14_fiq)
          else if cpsr &&& 0x1F = 0x12 then (ARM7.Reg.r13_irq, ARM7.Reg.r14_irq)
          else if cpsr &&& 0x1F = 0x13 then (ARM7.Reg.r13_svc, ARM7.Reg.r14_svc)
          else if cpsr &&& 0x1F = 0x17 then (ARM7.Reg.r13_abt, ARM7.Reg.r14_abt)
          else if cpsr &&& 0x1F = 0x1B then (ARM7.Reg.r13_und, ARM7.Reg.r14_und)
          else (ARM7.Reg.r13, ARM7.Reg.r14)) ∧
    (ARM7.RemapRegisters cpsr v).pspsr
      = (if cpsr &&& 0x1F = 0x11 then some ARM7.SpsrCell.spsr_fiq
          else if cpsr &&& 0x1F = 0x12 then some ARM7.SpsrCell.spsr_irq
          else if cpsr &&& 0x1F = 0x13 then some ARM7.SpsrCell.spsr_svc
          else if cpsr &&& 0x1F = 0x17 then some ARM7.SpsrCell.spsr_abt
          else if cpsr &&& 0x1F = 0x1B then some ARM7.SpsrCell.spsr_und
          else some ARM7.SpsrCell.spsr_def) ∧
    List.Nodup [ARM7.Reg.r13, ARM7.Reg.r14, ARM7.Reg.r13_fiq, ARM7.Reg.r14_fiq,
      ARM7.Reg.r13_irq, ARM7.Reg.r14_irq, ARM7.Reg.r13_svc, ARM7.Reg.r14_svc,
      ARM7.Reg.r13_abt, ARM7.Reg.r14_abt, ARM7.Reg.r13_und, ARM7.Reg.r14_und] ∧
    ((ARM7.RemapRegisters cpsr2 v2).r8_to_r12 = (ARM7.RemapRegisters cpsr v).r8_to_r12 ∧
      (ARM7.RemapRegisters cpsr2 v2).r13_r14 = (ARM7.RemapRegisters cpsr v).r13_r14 ∧
      (ARM7.RemapRegisters cpsr2 v2).pspsr = (ARM7.RemapRegisters cpsr v).pspsr) := by
  have h1 := ARM7.RemapRegisters_defined cpsr v hmode
  have h2 := ARM7.RemapRegisters_defined cpsr2 v2 (hsame ▸ hmode)
  rw [hsame] at h2
  refine ⟨h1.1, h1.2.1, h1.2.2, by decide, ?_, ?_, ?_⟩
  · rw [h1.1, h2.1]
  · rw [h1.2.1, h2.2.1]
  · rw [h1.2.2, h2.2.2]

/-- Instance of C13 in FIQ mode (`cpsr = 0x11`), against a call in the same mode with other flag
bits and another previous mapping. -/
theorem C13_RemapRegisters_banks_witness :
    (ARM7.RemapRegisters 0x11 ARM7.RegView.base).r8_to_r12
      = (if 0x11 &&& 0x1F = 0x11
          then [ARM7.Reg.r8_fiq, ARM7.Reg.r9_fiq, ARM7.Reg.r10_fiq, ARM7.Reg.r11_fiq,
            ARM7.Reg.r12_fiq]
          else [ARM7.Reg.r8, ARM7.Reg.r9, ARM7.Reg.r10, ARM7.Reg.r11, ARM7.Reg.r12]) ∧
    (ARM7.RemapRegisters 0x11 ARM7.RegView.base).r13_r14
      = (if 0x11 &&& 0x1F = 0x11 then (ARM7.Reg.r13_fiq, ARM7.Reg.r14_fiq)
          else if 0x11 &&& 0x1F = 0x12 then (ARM7.Reg.r13_irq, ARM7.Reg.r14_irq)
          else if 0x11 &&& 0x1F = 0x13 then (ARM7.Reg.r13_svc, ARM7.Reg.r14_svc)
          else if 0x11 &&& 0x1F = 0x17 then (ARM7.Reg.r13_abt, ARM7.Reg.r14_abt)
          else if 0x11 &&& 0x1F = 0x1B then (ARM7.Reg.r13_und, ARM7.Reg.r14_und)
          else (ARM7.Reg.r13, ARM7.Reg.r14)) ∧
    (ARM7.RemapRegisters 0x11 ARM7.RegView.base).pspsr
      = (if 0x11 &&& 0x1F = 0x11 then some ARM7.SpsrCell.spsr_fiq
          else if 0x11 &&& 0x1F = 0x12 then some ARM7.SpsrCell.spsr_irq
          else if 0x11 &&& 0x1F = 0x13 then some ARM7.SpsrCell.spsr_svc
          else if 0x11 &&& 0x1F = 0x17 then some ARM7.SpsrCell.spsr_abt
          else if 0x11 &&& 0x1F = 0x1B then some ARM7.SpsrCell.spsr_und
          else some ARM7.SpsrCell.spsr_def) ∧
    List.Nodup [ARM7.Reg.r13, ARM7.Reg.r14, ARM7.Reg.r13_fiq, ARM7.Reg.r14_fiq,
      ARM7.Reg.r13_irq, ARM7.Reg.r14_irq, ARM7.Reg.r13_svc, ARM7.Reg.r14_svc,
      ARM7.Reg.r13_abt, ARM7.Reg.r14_abt, ARM7.Reg.r13_und, ARM7.Reg.r14_und] ∧
    ((ARM7.RemapRegisters 0xF00000D1
          (ARM7.RemapRegisters 0x13 ARM7.RegView.base)).r8_to_r12
        = (ARM7.RemapRegisters 0x11 ARM7.RegView.base).r8_to_r12 ∧
      (ARM7.RemapRegisters 0xF00000D1
          (ARM7.RemapRegisters 0x13 ARM7.RegView.base)).r13_r14
        = (ARM7.RemapRegisters 0x11 ARM7.RegView.base).r13_r14 ∧
      (ARM7.RemapRegisters 0xF00000D1
          (ARM7.RemapRegisters 0x13 ARM7.RegView.base)).pspsr
        = (ARM7.RemapRegisters 0x11 ARM7.RegView.base).pspsr) :=
  C13_RemapRegisters_banks 0x11 0xF00000D1 ARM7.RegView.base
    (ARM7.RemapRegisters 0x13 ARM7.RegView.base) (by decide) (by decide)

/-! ## Claims about the memory methods -/

namespace ARM7

/-- The `u16` that `(value >> 8) | (value << 24)` leaves is the high byte of `value`. -/
theorem hword_rotate_truncated (v : Nat) (hv : v < 2 ^ 16) :
    ((v >>> 8) ||| ((v <<< 24) % 2 ^ 32)) % 2 ^ 16 = v >>> 8 := by
  apply Nat.eq_of_testBit_eq
  intro i
  rw [Nat.testBit_mod_two_pow, Nat.testBit_or, Nat.testBit_mod_two_pow, Nat.testBit_shiftLeft,
    Nat.testBit_shiftRight]
  by_cases hi : i < 16
  · have h24 : ¬ (i ≥ 24) := by omega
    simp [hi, h24]
  · have hb : v.testBit (8 + i) = false :=
      Nat.testBit_lt_two_pow (Nat.lt_of_lt_of_le hv (Nat.pow_le_pow_right (by decide) (by omega)))
    simp [hi, hb]

theorem hword_lt (m : GBAMemory) (a : Nat) : m.hword a < 2 ^ 16 := Nat.mod_lt _ (by decide)

theorem byte_lt (m : GBAMemory) (a : Nat) : m.byte a < 2 ^ 8 := Nat.mod_lt _ (by decide)

/-- `ARM7::ReadHWord` in closed form. -/
theorem ReadHWord_eq (m : GBAMemory) (a : Nat) :
    ReadHWord m a
      = (if a &&& 1 != 0
          then (m.hword (a &&& 0xFFFFFFFE) >>> 8, [BusAccess.ReadHWord (a &&& 0xFFFFFFFE)])
          else (m.hword a, [BusAccess.ReadHWord a])) := by
  unfold ReadHWord
  split
  · simp only [hword_rotate_truncated _ (hword_lt m _)]
  · rfl

/-- Setting the bits above bit `k - 1` of a `k`-bit value adds them. -/
theorem or_high_bits (x k c : Nat) (hx : x < 2 ^ k) : x ||| 2 ^ k * c = x + 2 ^ k * c := by
  rw [Nat.or_comm, Nat.add_comm]
  exact (Nat.mul_add_lt_is_or hx c).symm

/-- The sign extension the code performs on a byte. -/
theorem sext8_code (x : Nat) (hx : x < 2 ^ 8) :
    (if x &&& 0x80 != 0 then x ||| 0xFFFFFF00 else x) = signExtend 8 x := by
  have h1 : (x &&& 0x80 != 0) = x.testBit 7 := and_two_pow_ne_zero x 7
  have h2 : x ||| 0xFFFFFF00 = x + (2 ^ 32 - 2 ^ 8) := or_high_bits x 8 0xFFFFFF hx
  rw [h1, h2]
  rfl

/-- The sign extension the code performs on a halfword. -/
theorem sext16_code (x : Nat) (hx : x < 2 ^ 16) :
    (if x &&& 0x8000 != 0 then x ||| 0xFFFF0000 else x) = signExtend 16 x := by
  have h1 : (x &&& 0x8000 != 0) = x.testBit 15 := and_two_pow_ne_zero x 15
  have h2 : x ||| 0xFFFF0000 = x + (2 ^ 32 - 2 ^ 16) := or_high_bits x 16 0xFFFF hx
  rw [h1, h2]
  rfl

/-- `ARM7::ReadHWordSigned` in closed form. -/
theorem ReadHWordSigned_eq (m : GBAMemory) (a : Nat) :
    ReadHWordSigned m a
      = (if a &&& 1 != 0
          then (signExtend 8 (m.byte (a &&& 0xFFFFFFFE)),
            [BusAccess.ReadByte (a &&& 0xFFFFFFFE)])
          else (signExtend 16 (m.hword a), [BusAccess.ReadHWord a])) := by
  unfold ReadHWordSigned
  split
  · simp only [sext8_code _ (byte_lt m _)]
  · simp only [sext16_code _ (hword_lt m _)]

theorem thumb_test (cpsr : Nat) : (cpsr &&& Thumb != 0) = cpsr.testBit 5 :=
  and_two_pow_ne_zero cpsr 5

/-- `ARM7::ReadWord` on the open-bus range. -/
theorem ReadWord_open_bus (m : GBAMemory) (st : FetchState) (a : Nat)
    (h1 : 0x4000 ≤ a) (h2 : a < 0x2000000) :
    ReadWord m st a
      = (if st.cpsr.testBit 5
          then ((st.last_fetched_opcode <<< 16) % 2 ^ 32) ||| st.last_fetched_opcode
          else st.last_fetched_opcode, []) := by
  have hlow : ¬ a < 0x4000 := by omega
  unfold ReadWord
  simp only [hlow, decide_False, Bool.false_and, Bool.false_eq_true, if_false, ge_iff_le, h1,
    h2, decide_True, Bool.and_self, if_true, thumb_test]
  split <;> rfl

/-- `ARM7::ReadWord` outside the special ranges. -/
theorem ReadWord_bus (m : GBAMemory) (st : FetchState) (a : Nat)
    (h : 0x2000000 ≤ a ∨ (a < 0x4000 ∧ st.last_fetched_offset < 0x4000)) :
    ReadWord m st a
      = (m.word (a &&& 0xFFFFFFFC), [BusAccess.ReadWord (a &&& 0xFFFFFFFC)]) := by
  unfold ReadWord
  rcases h with h | ⟨h, h3⟩
  · have hlow : ¬ a < 0x4000 := by omega
    have hhigh : ¬ a < 0x2000000 := by omega
    simp [hlow, hhigh]
  · have hlow : ¬ 0x4000 ≤ a := by omega
    have hoff : ¬ 0x4000 ≤ st.last_fetched_offset := by omega
    simp [hlow, hoff]

/-- A 16-bit opcode duplicated by `(op << 16) | op` fills both halves of the word. -/
theorem duplicate_halves (op : Nat) (hop : op < 2 ^ 16) :
    (((op <<< 16) % 2 ^ 32) ||| op) >>> 16 = op ∧ (((op <<< 16) % 2 ^ 32) ||| op) % 2 ^ 16 = op := by
  have h1 : (op <<< 16) % 2 ^ 32 = 2 ^ 16 * op := by
    rw [Nat.shiftLeft_eq, Nat.mul_comm]
    exact Nat.mod_eq_of_lt (by omega)
  have h2 : 2 ^ 16 * op ||| op = 2 ^ 16 * op + op := (Nat.mul_add_lt_is_or hop op).symm
  rw [h1, h2, Nat.shiftRight_eq_div_pow]
  constructor <;> omega

theorem rotr32_zero_amount (v : Nat) : rotr32 v 0 = v := by
  unfold rotr32
  have h : (v <<< (32 - 0 % 32)) % 2 ^ 32 = 0 := by
    rw [Nat.shiftLeft_eq]
    exact Nat.mul_mod_left _ _
  rw [h]
  simp

/-- `ARM7::ReadWordRotated` rotates what `ReadWord` returns for the aligned address. -/
theorem ReadWordRotated_eq (m : GBAMemory) (st : FetchState) (a : Nat) :
    ReadWordRotated m st a
      = (rotr32 (ReadWord m st (a &&& 0xFFFFFFFC)).1 ((a &&& 3) * 8),
          (ReadWord m st (a &&& 0xFFFFFFFC)).2) := by
  have h3 : a &&& 3 = a % 4 := Nat.and_pow_two_sub_one_eq_mod a 2
  have hlt : a % 4 < 4 := Nat.mod_lt _ (by decide)
  unfold ReadWordRotated
  rw [h3]
  generalize (ReadWord m st (a &&& 0xFFFFFFFC)) = r
  generalize a % 4 = k at hlt
  have hk : k = 0 ∨ k = 1 ∨ k = 2 ∨ k = 3 := by omega
  rcases hk with h | h | h | h <;> subst h
  · simp [rotr32_zero_amount]
  · rfl
  · rfl
  · rfl

/-- The bits 20..27 of an instruction word, moved down by 8, are its bits 20..27 moved to
position 12. -/
theorem pack_high_field (i : Nat) :
    (i &&& 0x0FF00000) >>> 8 = ((i >>> 20) &&& 0xFF) <<< 12 := by
  have hm : (0x0FF00000 : Nat) = (2 ^ 8 - 1) <<< 20 := by decide
  have hf : (0xFF : Nat) = 2 ^ 8 - 1 := by decide
  apply Nat.eq_of_testBit_eq
  intro j
  rw [Nat.testBit_shiftRight, Nat.testBit_and, hm, Nat.testBit_shiftLeft,
    Nat.testBit_two_pow_sub_one, Nat.testBit_shiftLeft, Nat.testBit_and,
    Nat.testBit_shiftRight, hf, Nat.testBit_two_pow_sub_one]
  by_cases hj : 12 ≤ j
  · have e1 : 20 + (j - 12) = 8 + j := by omega
    have e2 : 8 + j - 20 = j - 12 := by omega
    have e3 : 8 + j ≥ 20 := by omega
    simp [hj, e1, e2, e3]
  · have e3 : ¬ (8 + j ≥ 20) := by omega
    simp [hj, e3]

end ARM7

/-- C14, the code at the failing input: `ReadHWord` reads the bus halfword at `a & ~1` when bit 0
of `a` is set and at `a` otherwise; on an even address it returns that halfword, but on an odd
address the `u16` result keeps only `value >> 8`: the halfword `0x0034` read through address 1
gives 0, where a rotation right by 8 gives `0x34000000` on 32 bits or `0x3400` on 16 bits. -/
theorem C14_ReadHWord_odd_address (m : ARM7.GBAMemory) (a : Nat) :
    ARM7.ReadHWord m a
      = (if a &&& 1 != 0
          then (m.hword (a &&& 0xFFFFFFFE) >>> 8, [ARM7.BusAccess.ReadHWord (a &&& 0xFFFFFFFE)])
          else (m.hword a, [ARM7.BusAccess.ReadHWord a])) ∧
    ARM7.ReadHWord (ARM7.GBAMemory.const 0x0034) 1 = (0, [ARM7.BusAccess.ReadHWord 0]) ∧
    rotr32 0x0034 8 = 0x34000000 ∧
    ((0x0034 >>> 8) ||| (0x0034 <<< 8)) % 2 ^ 16 = 0x3400 := by
  exact ⟨ARM7.ReadHWord_eq m a, by decide, by decide, by decide⟩

/-- C15, the code at the failing input: on an even address `ReadHWordSigned` returns the halfword
at that address sign-extended from 16 bits, but on an odd address it reads and sign-extends the
byte at `a & ~1`, not the byte at `a`: with the byte `0x80` at address 1 and `0x00` at address 0,
the read at address 1 returns 0, where the byte at address 1 sign-extends to `0xFFFFFF80`. -/
theorem C15_ReadHWordSigned_odd_address (m : ARM7.GBAMemory) (a : Nat) :
    ARM7.ReadHWordSigned m a
      = (if a &&& 1 != 0
          then (signExtend 8 (m.byte (a &&& 0xFFFFFFFE)),
            [ARM7.BusAccess.ReadByte (a &&& 0xFFFFFFFE)])
          else (signExtend 16 (m.hword a), [ARM7.BusAccess.ReadHWord a])) ∧
    ARM7.ReadHWordSigned ARM7.GBAMemory.byteAtOne 1 = (0, [ARM7.BusAccess.ReadByte 0]) ∧
    signExtend 8 (ARM7.GBAMemory.byteAtOne.byte 1) = 0xFFFFFF80 := by
  exact ⟨ARM7.ReadHWordSigned_eq m a, by decide, by decide⟩

/-- C16: for `0x4000 ≤ a < 0x2000000`, `ReadWord(a)` makes no bus call and returns
`last_fetched_opcode` when the T bit is clear; when the T bit is set, the last fetched opcode
being a 16-bit THUMB opcode, it returns a word whose upper and lower 16-bit halves both equal the
last fetched opcode. -/
theorem C16_ReadWord_open_bus (m : ARM7.GBAMemory) (st : ARM7.FetchState) (a : Nat)
    (h1 : 0x4000 ≤ a) (h2 : a < 0x2000000)
    (hop : st.cpsr.testBit 5 = true → st.last_fetched_opcode < 2 ^ 16) :
    (ARM7.ReadWord m st a).2 = [] ∧
    (st.cpsr.testBit 5 = false → (ARM7.ReadWord m st a).1 = st.last_fetched_opcode) ∧
    (st.cpsr.testBit 5 = true →
      (ARM7.ReadWord m st a).1 >>> 16 = st.last_fetched_opcode ∧
      (ARM7.ReadWord m st a).1 % 2 ^ 16 = st.last_fetched_opcode) := by
  rw [ARM7.ReadWord_open_bus m st a h1 h2]
  refine ⟨rfl, ?_, ?_⟩
  · intro hT
    simp only [hT, Bool.false_eq_true, if_false]
  · intro hT
    simp only [hT, if_true]
    exact ARM7.duplicate_halves _ (hop hT)

/-- Instance of C16 in THUMB state with the 16-bit opcode `0x4770`. -/
theorem C16_ReadWord_open_bus_witness :
    (ARM7.ReadWord (ARM7.GBAMemory.const 0) ⟨0x3F, 0x4770, 0, 0⟩ 0x4000).2 = [] ∧
    (Nat.testBit 0x3F 5 = false →
      (ARM7.ReadWord (ARM7.GBAMemory.const 0) ⟨0x3F, 0x4770, 0, 0⟩ 0x4000).1 = 0x4770) ∧
    (Nat.testBit 0x3F 5 = true →
      (ARM7.ReadWord (ARM7.GBAMemory.const 0) ⟨0x3F, 0x4770, 0, 0⟩ 0x4000).1 >>> 16 = 0x4770 ∧
      (ARM7.ReadWord (ARM7.GBAMemory.const 0) ⟨0x3F, 0x4770, 0, 0⟩ 0x4000).1 % 2 ^ 16
        = 0x4770) :=
  C16_ReadWord_open_bus (ARM7.GBAMemory.const 0) ⟨0x3F, 0x4770, 0, 0⟩ 0x4000
    (by decide) (by decide) (fun _ => by decide)

/-- C17: `ReadWordRotated(a)` is the value `ReadWord` returns for `a & ~3`, rotated right by
`(a & 3) * 8` bits, with the same bus calls; for a word-aligned `a` it is that value unchanged. -/
theorem C17_ReadWordRotated (m : ARM7.GBAMemory) (st : ARM7.FetchState) (a : Nat) :
    (ARM7.ReadWordRotated m st a).1
      = rotr32 (ARM7.ReadWord m st (a &&& 0xFFFFFFFC)).1 ((a &&& 3) * 8) ∧
    (ARM7.ReadWordRotated m st a).2 = (ARM7.ReadWord m st (a &&& 0xFFFFFFFC)).2 ∧
    (a &&& 3 = 0 →
      (ARM7.ReadWordRotated m st a).1 = (ARM7.ReadWord m st (a &&& 0xFFFFFFFC)).1) := by
  rw [ARM7.ReadWordRotated_eq]
  refine ⟨rfl, rfl, ?_⟩
  intro h
  simp only [h, Nat.zero_mul, ARM7.rotr32_zero_amount]

/-- C18: for every `a` and `x`, `WriteHWord(a, x)` issues exactly one bus halfword write of `x`
at `a & ~1` and `WriteWord(a, x)` exactly one bus word write of `x` at `a & ~3`; and `ReadWord(a)`
returns the bus word at `a & ~3` for `a ≥ 0x2000000` and for `a < 0x4000` while
`last_fetched_offset < 0x4000`. -/
theorem C18_forced_alignment (m : ARM7.GBAMemory) (st : ARM7.FetchState) (a x : Nat) :
    ARM7.WriteHWord a x = [ARM7.BusAccess.WriteHWord (a &&& 0xFFFFFFFE) x] ∧
    ARM7.WriteWord a x = [ARM7.BusAccess.WriteWord (a &&& 0xFFFFFFFC) x] ∧
    ((0x2000000 ≤ a ∨ (a < 0x4000 ∧ st.last_fetched_offset < 0x4000)) →
      ARM7.ReadWord m st a
        = (m.word (a &&& 0xFFFFFFFC), [ARM7.BusAccess.ReadWord (a &&& 0xFFFFFFFC)])) :=
  ⟨rfl, rfl, fun h => ARM7.ReadWord_bus m st a h⟩

/-- Instance of C18 at the unaligned BIOS address `0x103` while executing inside the BIOS, the
condition on the read discharged. -/
theorem C18_forced_alignment_witness :
    ARM7.WriteHWord 0x103 0xBEEF = [ARM7.BusAccess.WriteHWord (0x103 &&& 0xFFFFFFFE) 0xBEEF] ∧
    ARM7.WriteWord 0x103 0xBEEF = [ARM7.BusAccess.WriteWord (0x103 &&& 0xFFFFFFFC) 0xBEEF] ∧
    ARM7.ReadWord (ARM7.GBAMemory.const 7) ⟨0x1F, 0, 0x100, 0⟩ 0x103
      = ((ARM7.GBAMemory.const 7).word (0x103 &&& 0xFFFFFFFC),
          [ARM7.BusAccess.ReadWord (0x103 &&& 0xFFFFFFFC)]) :=
  ⟨(C18_forced_alignment (ARM7.GBAMemory.const 7) ⟨0x1F, 0, 0x100, 0⟩ 0x103 0xBEEF).1,
    (C18_forced_alignment (ARM7.GBAMemory.const 7) ⟨0x1F, 0, 0x100, 0⟩ 0x103 0xBEEF).2.1,
    (C18_forced_alignment (ARM7.GBAMemory.const 7) ⟨0x1F, 0, 0x100, 0⟩ 0x103 0xBEEF).2.2
      (Or.inr ⟨by decide, by decide⟩)⟩

/-! ## Claims about decoding -/

/-- C19 fails as stated: the instruction word 1 is packed to index 1, while
`((instr >> 20) & 0xFF) << 4 | ((instr >> 4) & 0xF)` is 0 for it. -/
theorem C19_arm_pack_instr_counterexample :
    ARM7.arm_pack_instr 1 = 1 ∧
    ((((1 >>> 20) &&& 0xFF) <<< 4) ||| ((1 >>> 4) &&& 0xF)) = 0 ∧
    ARM7.arm_pack_instr 1 ≠ ((((1 >>> 20) &&& 0xFF) <<< 4) ||| ((1 >>> 4) &&& 0xF)) := by
  decide

/-- C19 (amended): for every instruction word, `arm_pack_instr(instr)` equals
`((instr >> 20) & 0xFF) << 12 | (instr & 0xFFF)`. -/
theorem C19_arm_pack_instr (instr : Nat) :
    ARM7.arm_pack_instr instr = ((((instr >>> 20) &&& 0xFF) <<< 12) ||| (instr &&& 0xFFF)) := by
  unfold ARM7.arm_pack_instr
  rw [ARM7.pack_high_field, Nat.or_comm]

/-! ## Claims about the audio unit -/

/-- C20: `StepMixer(cycles_late)` makes exactly one scheduler call, adding a `StepMixer` event with
delay `GetSampleInterval() - cycles_late`, and `StepSequencer(cycles_late)` exactly one, adding a
`StepSequencer` event with delay `s_cycles_per_step - cycles_late`; run at time `T + cycles_late`,
each leaves the pending events extended by one successor due at `T + interval`, whatever
`cycles_late` is. -/
theorem C20_periodic_reschedule (interval step T cycles_late : Int) (es : List APU.Event) :
    (∀ s : APU.Scheduler,
      APU.StepMixer interval cycles_late s
        = s.Add (interval - cycles_late) APU.Handler.StepMixer ∧
      APU.StepSequencer step cycles_late s
        = s.Add (step - cycles_late) APU.Handler.StepSequencer) ∧
    APU.StepMixer interval cycles_late { now := T + cycles_late, events := es }
      = { now := T + cycles_late,
          events := es ++ [{ timestamp := T + interval, handler := APU.Handler.StepMixer }] } ∧
    APU.StepSequencer step cycles_late { now := T + cycles_late, events := es }
      = { now := T + cycles_late,
          events := es ++ [{ timestamp := T + step, handler := APU.Handler.StepSequencer }] } := by
  refine ⟨fun s => ⟨rfl, rfl⟩, ?_, ?_⟩
  · simp only [APU.StepMixer, APU.Scheduler.Add]
    have h : T + cycles_late + (interval - cycles_late) = T + interval := by omega
    rw [h]
  · simp only [APU.StepSequencer, APU.Scheduler.Add]
    have h : T + cycles_late + (step - cycles_late) = T + step := by omega
    rw [h]

/-! ## Further claims about register banking and the shifter -/

/-- C21: when the mode field of the CPSR is none of the seven defined modes, `RemapRegisters`
leaves the view as it was: the 16 register mappings and the selected SPSR are unchanged. -/
theorem C21_RemapRegisters_undefined_mode (cpsr : Nat) (v : ARM7.RegView)
    (hmode : cpsr &&& 0x1F ∉ [0x10, 0x11, 0x12, 0x13, 0x17, 0x1B, 0x1F]) :
    ARM7.RemapRegisters cpsr v = v ∧
    (∀ i : Fin 16, (ARM7.RemapRegisters cpsr v).gprs i = v.gprs i) ∧
    (ARM7.RemapRegisters cpsr v).pspsr = v.pspsr := by
  have h : ARM7.RemapRegisters cpsr v = v := by
    simp only [List.mem_cons, List.mem_singleton, List.not_mem_nil, or_false, not_or] at hmode
    obtain ⟨h0, h1, h2, h3, h4, h5, h6⟩ := hmode
    unfold ARM7.RemapRegisters
    simp only [ARM7.ARM7Mode.User, ARM7.ARM7Mode.FIQ, ARM7.ARM7Mode.IRQ, ARM7.ARM7Mode.SVC,
      ARM7.ARM7Mode.Abort, ARM7.ARM7Mode.Undefined, ARM7.ARM7Mode.System,
      h0, h1, h2, h3, h4, h5, h6, if_false]
  rw [h]
  exact ⟨rfl, fun _ => rfl, rfl⟩

/-- Instance of C21 at `cpsr = 0x00` (mode field 0) on the view of FIQ mode. -/
theorem C21_RemapRegisters_undefined_mode_witness :
    ARM7.RemapRegisters 0x00 (ARM7.RemapRegisters 0x11 ARM7.RegView.base)
      = ARM7.RemapRegisters 0x11 ARM7.RegView.base ∧
    (∀ i : Fin 16,
      (ARM7.RemapRegisters 0x00 (ARM7.RemapRegisters 0x11 ARM7.RegView.base)).gprs i
        = (ARM7.RemapRegisters 0x11 ARM7.RegView.base).gprs i) ∧
    (ARM7.RemapRegisters 0x00 (ARM7.RemapRegisters 0x11 ARM7.RegView.base)).pspsr
      = (ARM7.RemapRegisters 0x11 ARM7.RegView.base).pspsr :=
  C21_RemapRegisters_undefined_mode 0x00 (ARM7.RemapRegisters 0x11 ARM7.RegView.base)
    (by decide)

/-- C22: for a 32-bit `v`, any carry-in, either form and `1 ≤ a ≤ 255`, `ROR` returns `v` rotated
right by `a mod 32` positions (a 32-bit value whose bit `i` is bit `(i + a mod 32) mod 32` of
`v`) and the carry-out is bit 31 of the returned value; `ROR` by 32 returns `v` with carry-out
bit 31 of `v`. -/
theorem C22_ROR_rotates (v a : Nat) (c immediate : Bool) (hv : v < 2 ^ 32)
    (ha1 : 1 ≤ a) (ha2 : a ≤ 255) :
    ARM7.ROR v a c immediate
      = some (rotr32 v (a % 32), (rotr32 v (a % 32)).testBit 31) ∧
    rotr32 v (a % 32) < 2 ^ 32 ∧
    (∀ i, i < 32 → (rotr32 v (a % 32)).testBit i = v.testBit ((i + a % 32) % 32)) ∧
    ARM7.ROR v 32 c immediate = some (v, v.testBit 31) := by
  refine ⟨?_, ARM7.rotr32_lt v _ hv, fun i hi => ARM7.rotr32_testBit v _ i hv hi, ?_⟩
  · rw [ARM7.ROR_pos v a c immediate hv (by omega) (by omega), ARM7.rotr32_mod]
  · have h32 : rotr32 v 32 = v := by
      rw [← ARM7.rotr32_mod v 32]
      exact ARM7.rotr32_zero v hv
    rw [ARM7.ROR_pos v 32 c immediate hv (by decide) (by decide), h32]

/-- Instance of C22 at `v = 0x80000001`, `a = 33`, immediate form. -/
theorem C22_ROR_rotates_witness :
    ARM7.ROR 0x80000001 33 false true
      = some (rotr32 0x80000001 (33 % 32), (rotr32 0x80000001 (33 % 32)).testBit 31) ∧
    rotr32 0x80000001 (33 % 32) < 2 ^ 32 ∧
    (∀ i, i < 32 →
      (rotr32 0x80000001 (33 % 32)).testBit i = Nat.testBit 0x80000001 ((i + 33 % 32) % 32)) ∧
    ARM7.ROR 0x80000001 32 false true = some (0x80000001, Nat.testBit 0x80000001 31) :=
  C22_ROR_rotates 0x80000001 33 false true (by decide) (by decide) (by decide)

namespace ARM7

/-- The single-expression `LSR` for amounts 1..31. -/
theorem LSR_expr_mid (ws : WideShift) (v a : Nat) (c immediate : Bool)
    (ha1 : 1 ≤ a) (ha2 : a ≤ 31) :
    LSR_expr ws v a c immediate = (v / 2 ^ a, v.testBit (a - 1)) := by
  have h0 : a ≠ 0 := by omega
  have himm : immAmount a immediate = a := by simp [immAmount, h0]
  have hdec : dec32 a = a - 1 := by unfold dec32; omega
  have h1 : a - 1 < 32 := by omega
  have h2 : a < 32 := by omega
  have hbit : (v >>> (a - 1)).testBit 0 = v.testBit (a - 1) := by
    rw [Nat.testBit_shiftRight, Nat.add_zero]
  simp only [LSR_expr, himm, hdec, shr32, h1, h2, if_true, and_one_ne_zero, hbit]
  rw [Nat.shiftRight_eq_div_pow]

/-- The loop `LSR` for amounts 1..31. -/
theorem LSR_loop_mid (v a : Nat) (c immediate : Bool) (ha1 : 1 ≤ a) :
    LSR_loop v a c immediate = (v / 2 ^ a, v.testBit (a - 1)) := by
  have h0 : a ≠ 0 := by omega
  have himm : immAmount a immediate = a := by simp [immAmount, h0]
  simp only [LSR_loop, himm, lsr_loop_closed, h0, if_false, Nat.shiftRight_eq_div_pow]

/-- Bit `k` of the complement `2 ^ 32 - 1 - v` is the negation of bit `k` of `v`. -/
theorem complement_parity (v k : Nat) (hv : v < 2 ^ 32) (hk : k < 32) :
    decide ((2 ^ 32 - 1 - (2 ^ 32 - 1 - v) / 2 ^ k) % 2 = 1) = v.testBit k := by
  have hw : 2 ^ 32 - 1 - v = 2 ^ 32 - (v + 1) := by omega
  have hbit := Nat.testBit_two_pow_sub_succ hv k
  rw [← hw, Nat.testBit_to_div_mod] at hbit
  have hle : (2 ^ 32 - 1 - v) / 2 ^ k ≤ 2 ^ 32 - 1 := by
    have h := Nat.div_le_self (2 ^ 32 - 1 - v) (2 ^ k)
    omega
  generalize (2 ^ 32 - 1 - v) / 2 ^ k = q at hbit hle
  cases hb : v.testBit k
  · rw [hb] at hbit
    simp only [hk, decide_True, Bool.not_false, Bool.and_self, decide_eq_true_eq] at hbit
    apply decide_eq_false
    omega
  · rw [hb] at hbit
    simp only [hk, decide_True, Bool.not_true, Bool.and_false, decide_eq_false_iff_not] at hbit
    apply decide_eq_true
    omega

/-- `ASR` for amounts 1..31, in arithmetic form. -/
theorem ASR_mid (v a : Nat) (c immediate : Bool) (hv : v < 2 ^ 32)
    (ha1 : 1 ≤ a) (ha2 : a ≤ 31) :
    ASR v a c immediate
      = (if v.testBit 31 then 2 ^ 32 - 1 - (2 ^ 32 - 1 - v) / 2 ^ a else v / 2 ^ a,
          v.testBit (a - 1)) := by
  have h0 : a ≠ 0 := by omega
  have himm : immAmount a immediate = a := by simp [immAmount, h0]
  simp only [ASR, himm]
  rw [and_sign_eq]
  cases hb : v.testBit 31 with
  | false =>
    have hbody : asrBody 0 = lsrBody := funext asrBody_zero
    simp only [Bool.false_eq_true, if_false, hbody, lsr_loop_closed, h0,
      Nat.shiftRight_eq_div_pow]
  | true =>
    simp only [if_true, asr_loop_neg v c hv a, h0, if_false,
      complement_parity v (a - 1) hv (by omega)]

theorem asr_neg_arith (v q : Nat) (hv : v < 2 ^ 32) (hge : 2 ^ 31 ≤ v)
    (hq : q ≤ 2 ^ 32 - 1 - v) :
    ¬ (2 ^ 32 - 1 - q < 2 ^ 31) ∧
    ((2 ^ 32 - 1 - q : Nat) : Int) - 2 ^ 32 = -((q : Int) + 1) := by
  omega

theorem asr_neg_cast (v : Nat) (hv : v < 2 ^ 32) :
    (v : Int) - 2 ^ 32 = -(((2 ^ 32 - 1 - v : Nat) : Int) + 1) := by
  omega

/-- The result of `ASR` for amounts 1..31 is the two's-complement encoding of the floor of the
signed quotient. -/
theorem asr_value_int32 (v a : Nat) (hv : v < 2 ^ 32) :
    (if v.testBit 31 then 2 ^ 32 - 1 - (2 ^ 32 - 1 - v) / 2 ^ a else v / 2 ^ a) < 2 ^ 32 ∧
    int32 (if v.testBit 31 then 2 ^ 32 - 1 - (2 ^ 32 - 1 - v) / 2 ^ a else v / 2 ^ a)
      = int32 v / 2 ^ a := by
  have hpos : (0 : Int) < 2 ^ a := by positivity
  cases hb : v.testBit 31 with
  | false =>
    have hlt : v < 2 ^ 31 := by
      rw [testBit_31_iff v hv] at hb
      simpa using hb
    have hq : v / 2 ^ a ≤ v := Nat.div_le_self _ _
    have hcast : ((v / 2 ^ a : Nat) : Int) = (v : Int) / 2 ^ a := by
      rw [Int.ofNat_ediv]
      norm_cast
    simp only [Bool.false_eq_true, if_false]
    refine ⟨by omega, ?_⟩
    unfold int32
    rw [if_pos (by omega), if_pos hlt, hcast]
  | true =>
    have hge : 2 ^ 31 ≤ v := by
      rw [testBit_31_iff v hv] at hb
      simpa using hb
    have hq : (2 ^ 32 - 1 - v) / 2 ^ a ≤ 2 ^ 32 - 1 - v := Nat.div_le_self _ _
    have hcast : (((2 ^ 32 - 1 - v) / 2 ^ a : Nat) : Int)
        = ((2 ^ 32 - 1 - v : Nat) : Int) / 2 ^ a := by
      rw [Int.ofNat_ediv]
      norm_cast
    have hneg : (v : Int) - 2 ^ 32 = Int.negSucc (2 ^ 32 - 1 - v) := by
      rw [Int.negSucc_eq]
      exact asr_neg_cast v hv
    have hvge : ¬ v < 2 ^ 31 := by omega
    have har := asr_neg_arith v _ hv hge hq
    simp only [if_true]
    refine ⟨asr_step_lt _, ?_⟩
    unfold int32
    rw [if_neg har.1, if_neg hvge, hneg, Int.negSucc_ediv _ hpos, har.2, hcast]
    rfl

end ARM7

/-- C23: for a 32-bit `v`, any carry-in and `1 ≤ a ≤ 31`, `LSR` returns `floor(v / 2 ^ a)` in the
single-expression and in the loop variant, `ASR` returns the 32-bit two's-complement encoding of
`floor(int32 v / 2 ^ a)`, and in each case the carry-out is bit `a - 1` of `v`. -/
theorem C23_LSR_ASR_amount_1_to_31 (ws : WideShift) (v a : Nat) (c immediate : Bool)
    (hv : v < 2 ^ 32) (ha1 : 1 ≤ a) (ha2 : a ≤ 31) :
    ARM7.LSR_expr ws v a c immediate = (v / 2 ^ a, v.testBit (a - 1)) ∧
    ARM7.LSR_loop v a c immediate = (v / 2 ^ a, v.testBit (a - 1)) ∧
    (ARM7.ASR v a c immediate).1 < 2 ^ 32 ∧
    int32 (ARM7.ASR v a c immediate).1 = int32 v / 2 ^ a ∧
    (ARM7.ASR v a c immediate).2 = v.testBit (a - 1) := by
  have hasr := ARM7.ASR_mid v a c immediate hv ha1 ha2
  have hval := ARM7.asr_value_int32 v a hv
  rw [hasr]
  exact ⟨ARM7.LSR_expr_mid ws v a c immediate ha1 ha2, ARM7.LSR_loop_mid v a c immediate ha1,
    hval.1, hval.2, rfl⟩

/-- Instance of C23 at `v = 0x80000005`, `a = 3`. -/
theorem C23_LSR_ASR_amount_1_to_31_witness :
    ARM7.LSR_expr WideShift.masked 0x80000005 3 false false
      = (0x80000005 / 2 ^ 3, Nat.testBit 0x80000005 (3 - 1)) ∧
    ARM7.LSR_loop 0x80000005 3 false false
      = (0x80000005 / 2 ^ 3, Nat.testBit 0x80000005 (3 - 1)) ∧
    (ARM7.ASR 0x80000005 3 false false).1 < 2 ^ 32 ∧
    int32 (ARM7.ASR 0x80000005 3 false false).1 = int32 0x80000005 / 2 ^ 3 ∧
    (ARM7.ASR 0x80000005 3 false false).2 = Nat.testBit 0x80000005 (3 - 1) :=
  C23_LSR_ASR_amount_1_to_31 WideShift.masked 0x80000005 3 false false
    (by decide) (by decide) (by decide)

/-! ## Further claims about decoding, the mixer and the noise channel -/

namespace ARM7

/-- The bits of the decode index. -/
theorem arm_pack_instr_testBit (i j : Nat) :
    (arm_pack_instr i).testBit j
      = if j < 12 then i.testBit j else if j < 20 then i.testBit (j + 8) else false := by
  have hf : (0xFFF : Nat) = 2 ^ 12 - 1 := by decide
  have hb : (0xFF : Nat) = 2 ^ 8 - 1 := by decide
  unfold arm_pack_instr
  rw [pack_high_field, Nat.testBit_or, Nat.testBit_and, hf, Nat.testBit_two_pow_sub_one,
    Nat.testBit_shiftLeft, Nat.testBit_and, Nat.testBit_shiftRight, hb,
    Nat.testBit_two_pow_sub_one]
  by_cases h12 : j < 12
  · have h : ¬ (j ≥ 12) := by omega
    simp [h12, h]
  · by_cases h20 : j < 20
    · have h : j ≥ 12 := by omega
      have e : 20 + (j - 12) = j + 8 := by omega
      have hlt : j - 12 < 8 := by omega
      simp [h12, h20, h, e, hlt]
    · have hlt : ¬ (j - 12 < 8) := by omega
      simp [h12, h20, hlt]

theorem arm_pack_instr_lt (i : Nat) : arm_pack_instr i < 2 ^ 20 := by
  apply Nat.lt_pow_two_of_testBit
  intro j hj
  have h12 : ¬ j < 12 := by omega
  have h20 : ¬ j < 20 := by omega
  rw [arm_pack_instr_testBit, if_neg h12, if_neg h20]

end ARM7

/-- C24: `arm_pack_instr(i)` is the number below `2 ^ 20` whose bits 0-11 are bits 0-11 of `i` and
whose bits 12-19 are bits 20-27 of `i`; two instruction words get the same index exactly when
they agree on bits 0-11 and 20-27. -/
theorem C24_arm_pack_instr_index (i i2 : Nat) :
    (∀ j, (ARM7.arm_pack_instr i).testBit j
      = if j < 12 then i.testBit j else if j < 20 then i.testBit (j + 8) else false) ∧
    ARM7.arm_pack_instr i < 2 ^ 20 ∧
    (ARM7.arm_pack_instr i = ARM7.arm_pack_instr i2 ↔
      ∀ j, (j < 12 ∨ (20 ≤ j ∧ j < 28)) → i.testBit j = i2.testBit j) := by
  refine ⟨ARM7.arm_pack_instr_testBit i, ARM7.arm_pack_instr_lt i, ?_, ?_⟩
  · intro h j hj
    rcases hj with hj | ⟨hj1, hj2⟩
    · have h1 := ARM7.arm_pack_instr_testBit i j
      have h2 := ARM7.arm_pack_instr_testBit i2 j
      rw [if_pos hj] at h1 h2
      rw [← h1, ← h2, h]
    · have h1 := ARM7.arm_pack_instr_testBit i (j - 8)
      have h2 := ARM7.arm_pack_instr_testBit i2 (j - 8)
      have a1 : ¬ (j - 8 < 12) := by omega
      have a2 : j - 8 < 20 := by omega
      have a3 : j - 8 + 8 = j := by omega
      rw [if_neg a1, if_pos a2, a3] at h1 h2
      rw [← h1, ← h2, h]
  · intro h
    apply Nat.eq_of_testBit_eq
    intro j
    rw [ARM7.arm_pack_instr_testBit, ARM7.arm_pack_instr_testBit]
    by_cases h12 : j < 12
    · rw [if_pos h12, if_pos h12]
      exact h j (Or.inl h12)
    · by_cases h20 : j < 20
      · rw [if_neg h12, if_neg h12, if_pos h20, if_pos h20]
        exact h (j + 8) (Or.inr ⟨by omega, by omega⟩)
      · rw [if_neg h12, if_neg h12, if_neg h20, if_neg h20]

namespace APU

/-- A value clamped to `[0, 0x3FF]` and lowered by `0x200` fits the `std::int16_t` and lies in
`[-512, 511]`. -/
theorem clamp_sub_range (x : Int) :
    toInt16 (clamp x (toInt16 0) (toInt16 0x3FF) - 0x200) = clamp x 0 0x3FF - 0x200 ∧
    -512 ≤ clamp x 0 0x3FF - 0x200 ∧ clamp x 0 0x3FF - 0x200 ≤ 511 := by
  have h0 : toInt16 0 = 0 := by decide
  have h1 : toInt16 0x3FF = 0x3FF := by decide
  rw [h0, h1]
  unfold clamp toInt16
  split_ifs <;> omega

end APU

/-- C25: whatever the sound registers, PSG samples, FIFO latches and bias level are, each
per-channel sample `StepMixer` leaves after the clamp to `[0, 0x3FF]` and the subtraction of
`0x200` is the clamped accumulated value minus `0x200` and lies in `[-512, 511]`. -/
theorem C25_StepMixer_sample_range (inp : APU.MixerInputs) (channel : Fin 2) :
    APU.StepMixer_sample inp channel
      = clamp (APU.StepMixer_accumulate inp channel) 0 0x3FF - 0x200 ∧
    -512 ≤ APU.StepMixer_sample inp channel ∧
    APU.StepMixer_sample inp channel ≤ 511 := by
  have h := APU.clamp_sub_range (APU.StepMixer_accumulate inp channel)
  have heq : APU.StepMixer_sample inp channel
      = clamp (APU.StepMixer_accumulate inp channel) 0 0x3FF - 0x200 := h.1
  rw [heq]
  exact ⟨rfl, h.2.1, h.2.2⟩

namespace NoiseChannel

theorem two_pow_bounds (s : Nat) (hs : s ≤ 15) : (1 : Int) ≤ 2 ^ s ∧ (2 : Int) ^ s ≤ 32768 := by
  have h1 : (2 : Int) ^ s ≤ 2 ^ 15 := pow_le_pow_right₀ (by norm_num) hs
  have h2 : (1 : Int) ≤ 2 ^ s := one_le_pow₀ (by norm_num)
  constructor
  · exact h2
  · simpa using h1

theorem interval_arith (p : Int) (h1 : 1 ≤ p) (h2 : p ≤ 32768) (r : Nat) (hr : r ≤ 7) :
    toInt32 (64 * p) = 64 * p ∧ Int.tdiv (64 * p) 2 = 32 * p ∧
    toInt32 (64 * p * (r : Int)) = 64 * p * (r : Int) := by
  refine ⟨?_, ?_, ?_⟩
  · unfold toInt32; omega
  · rw [Int.tdiv_eq_ediv (by omega) (by decide)]; omega
  · unfold toInt32
    interval_cases r <;> simp <;> omega

/-- `GetSynthesisInterval` in closed form on the register ranges. -/
theorem GetSynthesisInterval_closed (r s : Nat) (hr : r ≤ 7) (hs : s ≤ 15) :
    GetSynthesisInterval (r : Int) s
      = if r = 0 then 32 * 2 ^ s else 64 * 2 ^ s * (r : Int) := by
  obtain ⟨hp1, hp2⟩ := two_pow_bounds s hs
  obtain ⟨a1, a2, a3⟩ := interval_arith (2 ^ s) hp1 hp2 r hr
  unfold GetSynthesisInterval
  simp only [a1]
  by_cases h : r = 0
  · subst h
    simp [a2]
  · have hne : ((r : Int) == 0) = false := by
      apply beq_false_of_ne
      exact_mod_cast h
    simp only [hne, Bool.false_eq_true, if_false, a3, h]

end NoiseChannel

/-- C26: for a frequency shift `s` in 0..15 and a divider ratio `r` in 0..7,
`GetSynthesisInterval(r, s)` is `32 * 2 ^ s` when `r = 0` and `64 * 2 ^ s * r` otherwise; it is at
least 32, ratio 0 gives half the interval of ratio 1, and the interval is strictly increasing in
`r` and in `s`. -/
theorem C26_GetSynthesisInterval (r s r2 s2 : Nat) (hr : r ≤ 7) (hs : s ≤ 15)
    (hr2 : r2 ≤ 7) (hs2 : s2 ≤ 15) :
    NoiseChannel.GetSynthesisInterval (r : Int) s
      = (if r = 0 then 32 * 2 ^ s else 64 * 2 ^ s * (r : Int)) ∧
    32 ≤ NoiseChannel.GetSynthesisInterval (r : Int) s ∧
    2 * NoiseChannel.GetSynthesisInterval 0 s = NoiseChannel.GetSynthesisInterval 1 s ∧
    (r < r2 →
      NoiseChannel.GetSynthesisInterval (r : Int) s
        < NoiseChannel.GetSynthesisInterval (r2 : Int) s) ∧
    (s < s2 →
      NoiseChannel.GetSynthesisInterval (r : Int) s
        < NoiseChannel.GetSynthesisInterval (r : Int) s2) := by
  obtain ⟨hp1, hp2⟩ := NoiseChannel.two_pow_bounds s hs
  have c := NoiseChannel.GetSynthesisInterval_closed r s hr hs
  have c2 := NoiseChannel.GetSynthesisInterval_closed r2 s hr2 hs
  have c3 := NoiseChannel.GetSynthesisInterval_closed r s2 hr hs2
  have c0 := NoiseChannel.GetSynthesisInterval_closed 0 s (by decide) hs
  have c1 := NoiseChannel.GetSynthesisInterval_closed 1 s (by decide) hs
  simp only [Nat.cast_zero, Nat.cast_one, if_true, one_ne_zero, if_false, mul_one] at c0 c1
  refine ⟨c, ?_, ?_, ?_, ?_⟩
  · rw [c]
    generalize (2 : Int) ^ s = p at hp1 hp2
    interval_cases r <;> simp <;> omega
  · rw [c0, c1]
    ring
  · intro hlt
    rw [c, c2]
    generalize (2 : Int) ^ s = p at hp1 hp2
    interval_cases r <;> interval_cases r2 <;> simp at hlt ⊢ <;> omega
  · intro hlt
    rw [c, c3]
    have hpow : (2 : Int) ^ s < 2 ^ s2 := pow_lt_pow_right₀ (by norm_num) hlt
    generalize (2 : Int) ^ s = p at hp1 hp2 hpow
    generalize (2 : Int) ^ s2 = q at hpow
    interval_cases r <;> simp <;> omega

/-- Instance of C26 at `r = 0`, `s = 3` against `r2 = 1`, `s2 = 4`. -/
theorem C26_GetSynthesisInterval_witness :
    NoiseChannel.GetSynthesisInterval ((0 : Nat) : Int) 3
      = (if (0 : Nat) = 0 then 32 * 2 ^ 3 else 64 * 2 ^ 3 * ((0 : Nat) : Int)) ∧
    32 ≤ NoiseChannel.GetSynthesisInterval ((0 : Nat) : Int) 3 ∧
    2 * NoiseChannel.GetSynthesisInterval 0 3 = NoiseChannel.GetSynthesisInterval 1 3 ∧
    ((0 : Nat) < 1 →
      NoiseChannel.GetSynthesisInterval ((0 : Nat) : Int) 3
        < NoiseChannel.GetSynthesisInterval ((1 : Nat) : Int) 3) ∧
    (3 < 4 →
      NoiseChannel.GetSynthesisInterval ((0 : Nat) : Int) 3
        < NoiseChannel.GetSynthesisInterval ((0 : Nat) : Int) 4) :=
  C26_GetSynthesisInterval 0 3 1 4 (by decide) (by decide) (by decide) (by decide)

/-- Evaluations of the mixer and of the noise interval on concrete inputs. -/
theorem mixer_and_noise_evaluations :
    APU.StepMixer_sample APU.MixerInputs.silent 0 = 0 ∧
    APU.StepMixer_sample APU.MixerInputs.loud 1 = 511 ∧
    NoiseChannel.GetSynthesisInterval 0 0 = 32 ∧
    NoiseChannel.GetSynthesisInterval 7 15 = 14680064 := by
  decide

end NanoboyAdvance
